import Mathlib

/-!
Verification development for the Invoice-Uploader backend's
extraction-and-reconciliation pipeline.

The JavaScript source is shallowly embedded:
* JS runtime values that can appear after `JSON.parse`, or that the
  coercion code constructs, are `JValue`; JS numbers are `JNum`
  (a rational or NaN — the claims under study only compare values that
  are computed identically on both sides, so exact rationals stand in
  for IEEE doubles; the nonfinite values `Infinity`/`-Infinity` do not
  occur in any claim and are outside the modelled input space).
* Absent object properties (JS `undefined`) are `Option.none` at the
  access site; `null` is an explicit `JValue.null`.
* The handful of JS builtins whose full behaviour is irrelevant to the
  claims (string → number parsing beyond plain decimal literals,
  number → string rendering, HTML entity decoding, `Date` parsing) are
  collected in a `JsPrims` parameter; theorems quantify over it, and
  concrete witnesses use `defaultPrims`, which is faithful to Node on
  every input a witness evaluates it at.
-/

attribute [local semireducible] Rat.mul Rat.add Rat.sub Rat.inv Rat.ofScientific

/-- A JavaScript number: either NaN or a (finite) rational. -/
inductive JNum where
  | nan
  | fin (q : ℚ)
  deriving DecidableEq, Repr

/-- Truthiness of a JS number: `NaN`, `0` and `-0` are falsy. -/
def JNum.truthy : JNum → Bool
  | .nan => false
  | .fin q => q ≠ 0

/-- Model of the JS `x || y` idiom on numbers (used as `Number(v) || 0`). -/
def JNum.orElse (a b : JNum) : JNum :=
  if a.truthy then a else b

/-- Multiplication of JS numbers; NaN is absorbing (no infinities are modelled). -/
def JNum.mul : JNum → JNum → JNum
  | .nan, _ => .nan
  | _, .nan => .nan
  | .fin a, .fin b => .fin (a * b)

/-- Collapse a JS number to a rational, sending NaN to `0`
(the JS `parseFloat(v) || 0` / `Number(v) || 0` result as stored in the DB). -/
def JNum.orZero : JNum → ℚ
  | .nan => 0
  | .fin q => q

/-- A JavaScript value as produced by `JSON.parse` or built by the coercion
code.  Objects are insertion-ordered key/value lists; the JSON parser below
keeps keys unique, matching real JS objects. -/
inductive JValue where
  | null
  | bool (b : Bool)
  | num (x : JNum)
  | str (s : String)
  | arr (xs : List JValue)
  | obj (fs : List (String × JValue))

/-- Look up the first binding of a key in an association list
(JS objects have unique keys, so first = the binding). -/
def lookupF : List (String × JValue) → String → Option JValue
  | [], _ => none
  | (k', v') :: rest, k => if k' = k then some v' else lookupF rest k

/-- Replace the value of the first binding of `k` in place, or append the
binding — this is JS property assignment on insertion-ordered objects. -/
def setF : List (String × JValue) → String → JValue → List (String × JValue)
  | [], k, v => [(k, v)]
  | (k', v') :: rest, k, v =>
      if k' = k then (k, v) :: rest else (k', v') :: setF rest k v

/-- Property read `o[k]`: `none` is JS `undefined` (also for non-objects;
reads on `null` are handled separately at each site, since they throw). -/
def JValue.getField : JValue → String → Option JValue
  | .obj fs, k => lookupF fs k
  | _, _ => none

/-- Property write `o[k] = v`; on non-objects JS sloppy mode ignores it. -/
def JValue.setField : JValue → String → JValue → JValue
  | .obj fs, k, v => .obj (setF fs k v)
  | other, _, _ => other

/-- Truthiness of a JS value. -/
def JValue.truthy : JValue → Bool
  | .null => false
  | .bool b => b
  | .num x => x.truthy
  | .str s => s ≠ ""
  | .arr _ => true
  | .obj _ => true

/-- Whether the value is `null` (for the JS `??` operator; `undefined`
is the `Option.none` side of `getField`). -/
def JValue.isNull : JValue → Bool
  | .null => true
  | _ => false

/-- Model of the JS `a ?? b` operator on a property read
(`none` = `undefined`). -/
def jsCoalesce (a : Option JValue) (b : JValue) : JValue :=
  match a with
  | none => b
  | some v => if v.isNull then b else v

/-- Model of the JS `a || b` operator on a property read. -/
def jsOrVal (a : Option JValue) (b : JValue) : JValue :=
  match a with
  | none => b
  | some v => if v.truthy then v else b

/-- A calendar date as carried by a successfully-parsed JS `Date`
(proleptic Gregorian, non-negative years; BC years do not occur in the
claims). -/
structure DateTriple where
  year : ℕ
  month : ℕ
  day : ℕ
  deriving DecidableEq, Repr

/-- Gregorian leap-year rule (as used by ECMAScript dates). -/
def isLeapYear (y : ℕ) : Bool :=
  (y % 4 = 0 && y % 100 ≠ 0) || y % 400 = 0

/-- Days in a month of the proleptic Gregorian calendar. -/
def daysInMonth (y m : ℕ) : ℕ :=
  if m = 2 then (if isLeapYear y then 29 else 28)
  else if m = 4 ∨ m = 6 ∨ m = 9 ∨ m = 11 then 30
  else 31

/-- A structurally valid calendar date. -/
def DateTriple.valid (t : DateTriple) : Bool :=
  1 ≤ t.month && t.month ≤ 12 && 1 ≤ t.day && t.day ≤ daysInMonth t.year t.month

/-- JS builtins abstracted as parameters.  Every theorem below quantifies
over this structure; `defaultPrims` instantiates it for concrete witnesses.
The two `Prop` fields record behaviour ECMAScript guarantees of the real
builtins, which some proofs rely on. -/
structure JsPrims where
  /-- `Number(s)` on a string. -/
  s2n : String → JNum
  /-- ECMAScript guarantees `Number("") = 0`. -/
  s2n_empty : s2n "" = .fin 0
  /-- `parseFloat(s)` on a string (longest numeric prefix). -/
  pfloat : String → JNum
  /-- Number-to-string rendering used by `String()` / `JSON.stringify`. -/
  numStr : ℚ → String
  /-- `he.decode` — HTML entity decoding (identity on entity-free text). -/
  heDecode : String → String
  /-- `new Date(v)` followed by the NaN check: `some t` iff the date is
  valid, where `t` is the UTC calendar date of the parsed instant. -/
  dateParseVal : JValue → Option DateTriple
  /-- A JS `Date` that is not `Invalid Date` always denotes a real
  instant, so its UTC calendar date is a valid date. -/
  dateParseVal_valid : ∀ v t, dateParseVal v = some t → t.valid = true

mutual
/-- JS `String(v)` — string conversion as used by `Array.prototype.join`
and `ToPrimitive` (plain objects render as `[object Object]`). -/
def jsToString (P : JsPrims) : JValue → String
  | .null => "null"
  | .bool b => if b then "true" else "false"
  | .num .nan => "NaN"
  | .num (.fin q) => P.numStr q
  | .str s => s
  | .arr xs => joinComma P xs
  | .obj _ => "[object Object]"
termination_by v => (sizeOf v, 0)
decreasing_by all_goals (simp_wf; omega)

/-- `Array.prototype.join(",")` over the elements (the default `toString`
of a JS array). -/
def joinComma (P : JsPrims) : List JValue → String
  | [] => ""
  | [v] => joinElem P v
  | v :: rest => joinElem P v ++ "," ++ joinComma P rest
termination_by l => (sizeOf l, 0)
decreasing_by all_goals (simp_wf; omega)

/-- Element conversion inside `join`: `null` (and `undefined`, which cannot
occur in a parsed array here) becomes the empty string. -/
def joinElem (P : JsPrims) : JValue → String
  | .null => ""
  | v => jsToString P v
termination_by v => (sizeOf v, 1)
decreasing_by all_goals omega
end

/-- JSON string quoting as performed by `JSON.stringify` on a string value
(quotes, backslashes and control characters escaped). -/
def quoteStr (s : String) : String :=
  "\"" ++ String.join (s.toList.map fun c =>
    if c = '"' then "\\\""
    else if c = '\\' then "\\\\"
    else if c = '\n' then "\\n"
    else if c = '\r' then "\\r"
    else if c = '\t' then "\\t"
    else if c.toNat < 32 then "\\u00" ++ String.mk [hexDigit (c.toNat / 16), hexDigit (c.toNat % 16)]
    else String.mk [c]) ++ "\""
where
  hexDigit (n : ℕ) : Char :=
    if n < 10 then Char.ofNat (48 + n) else Char.ofNat (87 + n)

mutual
/-- JS `JSON.stringify(v)` (functions/`undefined` cannot occur in `JValue`,
so the result is always a string; `NaN` renders as `null`). -/
def jsonStringify (P : JsPrims) : JValue → String
  | .null => "null"
  | .bool b => if b then "true" else "false"
  | .num .nan => "null"
  | .num (.fin q) => P.numStr q
  | .str s => quoteStr s
  | .arr xs => "[" ++ stringifyItems P xs ++ "]"
  | .obj fs => "\x7b" ++ stringifyFields P fs ++ "\x7d"
termination_by v => sizeOf v

/-- Comma-separated stringification of array elements. -/
def stringifyItems (P : JsPrims) : List JValue → String
  | [] => ""
  | [v] => jsonStringify P v
  | v :: rest => jsonStringify P v ++ "," ++ stringifyItems P rest
termination_by l => sizeOf l

/-- Comma-separated stringification of object entries. -/
def stringifyFields (P : JsPrims) : List (String × JValue) → String
  | [] => ""
  | [(k, v)] => quoteStr k ++ ":" ++ jsonStringify P v
  | (k, v) :: rest => quoteStr k ++ ":" ++ jsonStringify P v ++ "," ++ stringifyFields P rest
termination_by l => sizeOf l
end

/-- JS `Number(v)` on a value.  Objects and arrays go through `ToPrimitive`,
i.e. their `toString`, then string-to-number conversion. -/
def jsNumber (P : JsPrims) : JValue → JNum
  | .null => .fin 0
  | .bool b => .fin (if b then 1 else 0)
  | .num x => x
  | .str s => P.s2n s
  | .arr xs => P.s2n (joinComma P xs)
  | .obj _ => P.s2n "[object Object]"

/-- `Number(o.k)` where the property may be absent (`Number(undefined) = NaN`). -/
def jsNumberOpt (P : JsPrims) : Option JValue → JNum
  | none => .nan
  | some v => jsNumber P v

/-- JS `parseFloat(v)`: the argument is converted to a string first.  On an
actual number the conversion round-trips (JS number rendering is
shortest-round-trip), which the `.num` case encodes directly. -/
def jsParseFloat (P : JsPrims) : JValue → JNum
  | .num x => x
  | v => P.pfloat (jsToString P v)

/-- Decimal digit value of a character, if any. -/
def digit? (c : Char) : Option ℕ :=
  if 48 ≤ c.toNat ∧ c.toNat ≤ 57 then some (c.toNat - 48) else none

/-- Split the longest run of leading decimal digits off a character list. -/
def takeDigits : List Char → (List ℕ × List Char)
  | [] => ([], [])
  | c :: rest =>
      match digit? c with
      | some d => let p := takeDigits rest; (d :: p.1, p.2)
      | none => ([], c :: rest)

/-- Value of a big-endian digit list. -/
def digitsVal (ds : List ℕ) : ℕ := ds.foldl (fun a d => a * 10 + d) 0

/-- Strip an optional leading sign; `true` means negative. -/
def parseSign : List Char → (Bool × List Char)
  | '-' :: r => (true, r)
  | '+' :: r => (false, r)
  | l => (false, l)

/-- Parse an unsigned decimal literal `digits [. digits]` (either digit
group may be empty but not both), returning its value and the rest. -/
def parseDecCore (l : List Char) : Option (ℚ × List Char) :=
  let p1 := takeDigits l
  match p1.2 with
  | '.' :: r =>
      let p2 := takeDigits r
      if p1.1.isEmpty ∧ p2.1.isEmpty then none
      else some (mkRat (digitsVal p1.1 * 10 ^ p2.1.length + digitsVal p2.1) (10 ^ p2.1.length), p2.2)
  | _ => if p1.1.isEmpty then none else some (mkRat (digitsVal p1.1) 1, p1.2)

/-- Parse an optional exponent part `[eE][+-]?digits`; `none` means an `e`
was present but malformed. -/
def parseExpPart (l : List Char) : Option (ℤ × List Char) :=
  match l with
  | c :: r =>
      if c = 'e' ∨ c = 'E' then
        let sp := parseSign r
        let dp := takeDigits sp.2
        if dp.1.isEmpty then none
        else some ((if sp.1 then -(digitsVal dp.1 : ℤ) else (digitsVal dp.1 : ℤ)), dp.2)
      else some (0, c :: r)
  | [] => some (0, [])

/-- Assemble sign, mantissa and exponent into a rational. -/
def numFromParts (neg : Bool) (q : ℚ) (e : ℤ) : ℚ :=
  let s := if neg then -q else q
  match e with
  | .ofNat k => s * mkRat (10 ^ k) 1
  | .negSucc k => s * mkRat 1 (10 ^ (k + 1))

/-- Trim leading and trailing whitespace from a character list. -/
def trimChars (l : List Char) : List Char :=
  ((l.dropWhile Char.isWhitespace).reverse.dropWhile Char.isWhitespace).reverse

/-- Model of JS `Number(s)` on strings: trim, empty ⇒ `0`, otherwise the
whole remainder must be a signed decimal literal with optional exponent.
Hexadecimal/binary/octal literals and `Infinity`, which JS also accepts,
are outside the modelled input space and fall to NaN here. -/
def s2nDefault (s : String) : JNum :=
  let t := trimChars s.toList
  if t.isEmpty then .fin 0
  else
    let sp := parseSign t
    match parseDecCore sp.2 with
    | none => .nan
    | some (q, r1) =>
        match parseExpPart r1 with
        | none => .nan
        | some (e, r2) => if r2.isEmpty then .fin (numFromParts sp.1 q e) else .nan

/-- Model of JS `parseFloat(s)`: skip leading whitespace, then read the
longest signed decimal literal prefix (with optional well-formed exponent);
NaN when no digits are found, trailing garbage ignored. -/
def pfloatDefault (s : String) : JNum :=
  let l := s.toList.dropWhile Char.isWhitespace
  let sp := parseSign l
  match parseDecCore sp.2 with
  | none => .nan
  | some (q, r1) =>
      match parseExpPart r1 with
      | none => .fin (numFromParts sp.1 q 0)
      | some (e, _) => .fin (numFromParts sp.1 q e)

/-- Pair of decimal digits as a number. -/
def digits2 (a b : Char) : Option ℕ := do
  let x ← digit? a
  let y ← digit? b
  pure (10 * x + y)

/-- Four decimal digits as a number. -/
def digits4 (a b c d : Char) : Option ℕ := do
  let x ← digits2 a b
  let y ← digits2 c d
  pure (100 * x + y)

/-- Six decimal digits as a number. -/
def digits6 (a b c d e f : Char) : Option ℕ := do
  let x ← digits2 a b
  let y ← digits2 c d
  let z ← digits2 e f
  pure (10000 * x + 100 * y + z)

/-- Package a year/month/day as a date, rejecting invalid calendar dates
(ECMAScript rejects e.g. `2021-04-31` and month `00`). -/
def mkValidDate (y m d : ℕ) : Option DateTriple :=
  if DateTriple.valid ⟨y, m, d⟩ then some ⟨y, m, d⟩ else none

/-- ECMAScript Date-Time-String-Format date-only parsing: `YYYY-MM-DD`
or the expanded-year form `+YYYYYY-MM-DD`.  Negative expanded years and
date-time forms are outside the modelled input space (`none`). -/
def parseIsoDate (s : String) : Option DateTriple :=
  match s.toList with
  | [a, b, c, d, h1, e, f, h2, g, i] =>
      if h1 = '-' ∧ h2 = '-' then do
        let y ← digits4 a b c d
        let m ← digits2 e f
        let dd ← digits2 g i
        mkValidDate y m dd
      else none
  | [p, a, b, c, d, e, f, h1, g, i, h2, j, k] =>
      if p = '+' ∧ h1 = '-' ∧ h2 = '-' then do
        let y ← digits6 a b c d e f
        let m ← digits2 g i
        let dd ← digits2 j k
        mkValidDate y m dd
      else none
  | _ => none

/-- Concrete `new Date(v)` model: ISO-format strings only; other values
(numeric timestamps, lenient non-ISO strings) are outside the modelled
input space and map to Invalid Date. -/
def dateParseValDefault : JValue → Option DateTriple
  | .str s => parseIsoDate s
  | _ => none

/-- A date produced by `mkValidDate` passes its own validity check. -/
theorem mkValidDate_valid {y m d : ℕ} {t : DateTriple}
    (h : mkValidDate y m d = some t) : t.valid = true := by
  unfold mkValidDate at h
  split at h
  · cases h; assumption
  · cases h

/-- A three-way optional bind ending in `mkValidDate` only yields valid dates. -/
theorem bindDate_valid {oy om od : Option ℕ} {t : DateTriple}
    (h : (do
      let y ← oy
      let m ← om
      let dd ← od
      mkValidDate y m dd) = some t) : t.valid = true := by
  cases oy with
  | none => cases h
  | some y =>
    cases om with
    | none => cases h
    | some m =>
      cases od with
      | none => cases h
      | some dd => exact mkValidDate_valid h

/-- Every date the ISO parser accepts is a valid calendar date. -/
theorem parseIsoDate_valid {s : String} {t : DateTriple}
    (h : parseIsoDate s = some t) : t.valid = true := by
  unfold parseIsoDate at h
  split at h
  · split at h
    · exact bindDate_valid h
    · cases h
  · split at h
    · exact bindDate_valid h
    · cases h
  · cases h

/-- The concrete instantiation of the JS builtin parameters used by all
closed witnesses; each component is faithful to Node at every input a
witness evaluates it on (see the component doc comments for the modelled
input spaces).  `numStr` is a placeholder rendering never relied upon by
any theorem, and `heDecode` is the identity, which matches `he.decode`
on entity-free text. -/
def defaultPrims : JsPrims where
  s2n := s2nDefault
  s2n_empty := by decide
  pfloat := pfloatDefault
  numStr := fun q => toString q
  heDecode := id
  dateParseVal := dateParseValDefault
  dateParseVal_valid := by
    intro v t h
    cases v <;> simp only [dateParseValDefault] at h <;> try cases h
    exact parseIsoDate_valid h

/-- The opening brace character (written via its code point to keep brace
glyphs out of the source). -/
def lbrace : Char := Char.ofNat 123

/-- The closing brace character. -/
def rbrace : Char := Char.ofNat 125

/-- Index of the last occurrence of a character. -/
def lastIdxOf (c : Char) : List Char → Option ℕ
  | [] => none
  | x :: xs =>
      match lastIdxOf c xs with
      | some j => some (j + 1)
      | none => if x = c then some 0 else none

/-- Index of the first occurrence of a character. -/
def firstIdxOf (c : Char) : List Char → Option ℕ
  | [] => none
  | x :: xs => if x = c then some 0 else (firstIdxOf c xs).map (· + 1)

/-- One attempt of the regex `/{[\s\S]*}/` anchored at the head of the
text: a leading opening brace, then the greedy `[\s\S]*` backtracks to the
last closing brace. -/
def braceMatchAt : List Char → Option (List Char)
  | [] => none
  | c :: rest =>
      if c = lbrace then
        match lastIdxOf rbrace rest with
        | some j => some (c :: rest.take (j + 1))
        | none => none
      else none

/-- Leftmost match of `/{[\s\S]*}/`: the regex engine tries each start
position from the left (this is `rawOutput.match(/{[\s\S]*}/)`). -/
def braceScan : List Char → Option (List Char)
  | [] => none
  | c :: rest =>
      match braceMatchAt (c :: rest) with
      | some m => some m
      | none => braceScan rest

/-- The substring running from the first opening brace to the last closing
brace of the text, as the specification words it ("first `{` to last `}`"),
defined independently of the regex engine model above. -/
def firstToLastSlice (l : List Char) : Option (List Char) :=
  match firstIdxOf lbrace l, lastIdxOf rbrace l with
  | some i, some j => if i < j then some ((l.drop i).take (j - i + 1)) else none
  | _, _ => none

/-- JSON whitespace. -/
def jsonWs (c : Char) : Bool := c = ' ' ∨ c = '\t' ∨ c = '\n' ∨ c = '\r'

/-- Drop leading JSON whitespace. -/
def skipWs (l : List Char) : List Char := l.dropWhile jsonWs

/-- Hexadecimal digit value. -/
def hexVal (c : Char) : Option ℕ :=
  if 48 ≤ c.toNat ∧ c.toNat ≤ 57 then some (c.toNat - 48)
  else if 97 ≤ c.toNat ∧ c.toNat ≤ 102 then some (c.toNat - 87)
  else if 65 ≤ c.toNat ∧ c.toNat ≤ 70 then some (c.toNat - 55)
  else none

/-- Four hex digits (a `\u` escape). -/
def parseHex4 : List Char → Option (ℕ × List Char)
  | a :: b :: c :: d :: rest => do
      let x ← hexVal a
      let y ← hexVal b
      let z ← hexVal c
      let w ← hexVal d
      pure (4096 * x + 256 * y + 16 * z + w, rest)
  | _ => none

/-- JSON string body (after the opening quote): standard escapes, raw
control characters rejected.  Lone surrogate escapes, which Lean `Char`
cannot carry, fall back to NUL and are outside the modelled input space. -/
def parseJStrAux : ℕ → List Char → Option (List Char × List Char)
  | 0, _ => none
  | _ + 1, [] => none
  | f + 1, c :: rest =>
      if c = '"' then some ([], rest)
      else if c = '\\' then
        match rest with
        | [] => none
        | e :: r2 =>
            let cont (ch : Char) (r : List Char) : Option (List Char × List Char) :=
              (parseJStrAux f r).map (fun p => (ch :: p.1, p.2))
            if e = '"' then cont '"' r2
            else if e = '\\' then cont '\\' r2
            else if e = '/' then cont '/' r2
            else if e = 'b' then cont (Char.ofNat 8) r2
            else if e = 'f' then cont (Char.ofNat 12) r2
            else if e = 'n' then cont '\n' r2
            else if e = 'r' then cont '\r' r2
            else if e = 't' then cont '\t' r2
            else if e = 'u' then
              match parseHex4 r2 with
              | some (n, r3) => cont (Char.ofNat n) r3
              | none => none
            else none
      else if c.toNat < 32 then none
      else (parseJStrAux f rest).map (fun p => (c :: p.1, p.2))

/-- JSON number grammar: `-? (0 | [1-9][0-9]*) (. [0-9]+)? ([eE][+-]?[0-9]+)?`
(leading zeros and a bare leading `+` are rejected, as `JSON.parse` does). -/
def parseJNum (l : List Char) : Option (ℚ × List Char) :=
  let (neg, l1) :=
    match l with
    | '-' :: r => (true, r)
    | _ => (false, l)
  let ip := takeDigits l1
  match ip.1 with
  | [] => none
  | d0 :: drest =>
      if d0 = 0 ∧ ¬ drest.isEmpty then none
      else
        let fp :=
          match ip.2 with
          | '.' :: r =>
              let dp := takeDigits r
              if dp.1.isEmpty then none
              else some (mkRat (digitsVal ip.1 * 10 ^ dp.1.length + digitsVal dp.1) (10 ^ dp.1.length), dp.2)
          | _ => some (mkRat (digitsVal ip.1) 1, ip.2)
        match fp with
        | none => none
        | some (q, r1) =>
            match r1 with
            | c :: r2 =>
                if c = 'e' ∨ c = 'E' then
                  let sp := parseSign r2
                  let dp := takeDigits sp.2
                  if dp.1.isEmpty then none
                  else some (numFromParts neg q (if sp.1 then -(digitsVal dp.1 : ℤ) else (digitsVal dp.1 : ℤ)), dp.2)
                else some (numFromParts neg q 0, r1)
            | [] => some (numFromParts neg q 0, [])

mutual
/-- Fuel-indexed JSON value parsing (`JSON.parse` grammar). -/
def parseJVal : ℕ → List Char → Option (JValue × List Char)
  | 0, _ => none
  | f + 1, l =>
      match skipWs l with
      | [] => none
      | c :: rest =>
          if c = '"' then (parseJStrAux (rest.length + 1) rest).map (fun p => (.str (String.mk p.1), p.2))
          else if c = lbrace then parseJObj f rest
          else if c = '[' then parseJArr f rest
          else
            match skipWs l with
            | 't' :: 'r' :: 'u' :: 'e' :: r => some (.bool true, r)
            | 'f' :: 'a' :: 'l' :: 's' :: 'e' :: r => some (.bool false, r)
            | 'n' :: 'u' :: 'l' :: 'l' :: r => some (.null, r)
            | l2 => (parseJNum l2).map (fun p => (.num (.fin p.1), p.2))

/-- Object body after the opening brace. -/
def parseJObj (f : ℕ) (l : List Char) : Option (JValue × List Char) :=
  match f with
  | 0 => none
  | f + 1 =>
      match skipWs l with
      | c :: rest =>
          if c = rbrace then some (.obj [], rest)
          else parseJFields f (c :: rest) []
      | [] => none

/-- One `"key": value` field, then a comma or closing brace; duplicate keys
replace in place, as in JS objects. -/
def parseJFields (f : ℕ) (l : List Char) (acc : List (String × JValue)) :
    Option (JValue × List Char) :=
  match f with
  | 0 => none
  | f + 1 =>
      match skipWs l with
      | '"' :: rest =>
          match parseJStrAux (rest.length + 1) rest with
          | none => none
          | some (ks, r1) =>
              match skipWs r1 with
              | ':' :: r2 =>
                  match parseJVal f r2 with
                  | none => none
                  | some (v, r3) =>
                      let acc' := setF acc (String.mk ks) v
                      match skipWs r3 with
                      | ',' :: r4 => parseJFields f r4 acc'
                      | c :: r4 => if c = rbrace then some (.obj acc', r4) else none
                      | [] => none
              | _ => none
      | _ => none

/-- Array body after the opening bracket. -/
def parseJArr (f : ℕ) (l : List Char) : Option (JValue × List Char) :=
  match f with
  | 0 => none
  | f + 1 =>
      match skipWs l with
      | c :: rest =>
          if c = ']' then some (.arr [], rest)
          else parseJElems f (c :: rest) []
      | [] => none

/-- One array element, then a comma or closing bracket. -/
def parseJElems (f : ℕ) (l : List Char) (acc : List JValue) :
    Option (JValue × List Char) :=
  match f with
  | 0 => none
  | f + 1 =>
      match parseJVal f l with
      | none => none
      | some (v, r1) =>
          match skipWs r1 with
          | ',' :: r2 => parseJElems f r2 (acc ++ [v])
          | ']' :: r2 => some (.arr (acc ++ [v]), r2)
          | _ => none
end

/-- `JSON.parse(s)`: parse one value and require only whitespace after it. -/
def jsonParse (s : String) : Option JValue :=
  match parseJVal (4 * s.length + 16) s.toList with
  | some (v, rest) => if (skipWs rest).isEmpty then some v else none
  | none => none

/-- The value `extractInvoiceFromFile` resolves with:
`{ ok, parsed, raw, error? }` (an absent JS key is `none`). -/
structure LlmResult where
  ok : Bool
  parsed : Option JValue
  raw : String
  error : Option String

/-- The factors of the recomputed line total: `Number(li.quantity || 0)` /
`Number(li.unit_price || 0)` (note `|| 0`, unlike the stored field's
`Number(li.quantity) || 0`). -/
def prodFactor (P : JsPrims) (v : Option JValue) : JNum :=
  jsNumber P (jsOrVal v (.num (.fin 0)))

/-- Line-item coercion from the sanitize block of `llm.js`
(`parsed.line_items.map(li => ...)`, lines 153–161): description defaulted
with `||`, quantity and unit price via `Number(x) || 0`, line total kept
when `Number(line_total)` is truthy and otherwise recomputed as
`Number(quantity || 0) * Number(unit_price || 0)`, confidence coerced when
the property is present and `null` otherwise.  `none` models the TypeError
thrown when the element is `null` (property access on `null`). -/
def coerceItem (P : JsPrims) (li : JValue) : Option JValue :=
  if li.isNull then none
  else some (.obj
      [("description", jsOrVal (li.getField "description") (.str "")),
       ("quantity", .num ((jsNumberOpt P (li.getField "quantity")).orElse (.fin 0))),
       ("unit_price", .num ((jsNumberOpt P (li.getField "unit_price")).orElse (.fin 0))),
       ("line_total", .num ((jsNumberOpt P (li.getField "line_total")).orElse
          ((prodFactor P (li.getField "quantity")).mul
           (prodFactor P (li.getField "unit_price"))))),
       ("confidence",
          match li.getField "confidence" with
          | none => .null
          | some v => .num (jsNumber P v))])

/-- Line-item coercion from `llm-2.js` (lines 166–174): identical to
`coerceItem` except the description default uses `??` instead of `||`. -/
def coerceItem2 (P : JsPrims) (li : JValue) : Option JValue :=
  if li.isNull then none
  else some (.obj
      [("description", jsCoalesce (li.getField "description") (.str "")),
       ("quantity", .num ((jsNumberOpt P (li.getField "quantity")).orElse (.fin 0))),
       ("unit_price", .num ((jsNumberOpt P (li.getField "unit_price")).orElse (.fin 0))),
       ("line_total", .num ((jsNumberOpt P (li.getField "line_total")).orElse
          ((prodFactor P (li.getField "quantity")).mul
           (prodFactor P (li.getField "unit_price"))))),
       ("confidence",
          match li.getField "confidence" with
          | none => .null
          | some v => .num (jsNumber P v))])

/-- One `if (parsed.k !== null && parsed.k !== undefined) parsed.k =
Number(parsed.k) || 0` statement (instantiated at `subtotal` and `total`
in both llm files). -/
def coerceMoney (P : JsPrims) (key : String) (o : JValue) : JValue :=
  match o.getField key with
  | none => o
  | some v =>
      if v.isNull then o
      else o.setField key (.num ((jsNumber P v).orElse (.fin 0)))

/-- JS `Array.prototype.map` over line items where the callback may throw
(`none`): the first throw aborts the whole map. -/
def mapOpt (f : JValue → Option JValue) : List JValue → Option (List JValue)
  | [] => some []
  | x :: xs =>
      match f x with
      | none => none
      | some y => (mapOpt f xs).map (y :: ·)

/-- The line-items source: `Array.isArray(parsed.line_items) ?
parsed.line_items : []` (the code first assigns `[]` when not an array,
then maps over it). -/
def lineItemsOf (o : JValue) : List JValue :=
  match o.getField "line_items" with
  | some (.arr xs) => xs
  | _ => []

/-- The whole sanitize/coerce block of `llm.js` (lines 146–162): subtotal
and total are coerced in place when present and non-null, `line_items` is
forced to an array and each element is coerced.  `none` models a TypeError
escaping the block. -/
def coerceTop (P : JsPrims) (parsed : JValue) : Option JValue :=
  if ¬ parsed.truthy then some parsed
  else
    match mapOpt (coerceItem P)
        (lineItemsOf (coerceMoney P "total" (coerceMoney P "subtotal" parsed))) with
    | none => none
    | some xs =>
        some ((coerceMoney P "total" (coerceMoney P "subtotal" parsed)).setField
          "line_items" (.arr xs))

/-- The sanitize/coerce block of `llm-2.js` (lines 160–175); same shape as
`coerceTop` but with the `??` description default of `coerceItem2`. -/
def coerceTop2 (P : JsPrims) (parsed : JValue) : Option JValue :=
  if ¬ parsed.truthy then some parsed
  else
    match mapOpt (coerceItem2 P)
        (lineItemsOf (coerceMoney P "total" (coerceMoney P "subtotal" parsed))) with
    | none => none
    | some xs =>
        some ((coerceMoney P "total" (coerceMoney P "subtotal" parsed)).setField
          "line_items" (.arr xs))

/-- JSON extraction and coercion of `llm.js` (lines 123–164), applied to the
resolved, entity-decoded model text: locate `/{[\s\S]*}/`, `JSON.parse` the
match, then coerce.  A coercion TypeError lands in the function's outer
catch, whose result (`raw: ""`) is folded in here. -/
def jsonStage (P : JsPrims) (rawOutput : String) : LlmResult :=
  match braceScan rawOutput.toList with
  | none => ⟨false, none, rawOutput, some "No JSON found in LLM output"⟩
  | some m =>
      match jsonParse (String.mk m) with
      | none => ⟨false, none, rawOutput, some "LLM returned non-JSON or malformed JSON"⟩
      | some parsed =>
          match coerceTop P parsed with
          | none => ⟨false, none, "", some "TypeError"⟩
          | some c => ⟨true, some c, rawOutput, none⟩

/-- JSON extraction and coercion of `llm-2.js` (lines 139–175); the same
pipeline with that file's error strings and coercion block. -/
def jsonStage2 (P : JsPrims) (rawOutput : String) : LlmResult :=
  match braceScan rawOutput.toList with
  | none => ⟨false, none, rawOutput, some "No JSON found in model output"⟩
  | some m =>
      match jsonParse (String.mk m) with
      | none => ⟨false, none, rawOutput, some "Model returned malformed JSON"⟩
      | some parsed =>
          match coerceTop2 P parsed with
          | none => ⟨false, none, "", some "TypeError"⟩
          | some c => ⟨true, some c, rawOutput, none⟩

/-- Observable side effects of one extraction attempt (used to state the
fail-fast claim: which external calls happened, in order). -/
inductive Event where
  | readFile
  | network
  deriving DecidableEq, Repr

/-- Behaviour of `fetch`'s response object in `llm.js`: HTTP ok flag and
status, plus the (possibly throwing) `res.text()` / `res.json()` bodies. -/
structure FetchResp where
  respOk : Bool
  status : ℕ
  text : Except String String
  json : Except String JValue

/-- One behaviour of the file system and network as seen by `llm.js`:
`readFileSync` either throws or yields content, `fetch` either throws
(network error) or yields a response. -/
structure EnvJs where
  readFile : Except String String
  fetch : Except String FetchResp

/-- One behaviour of the environment as seen by `llm-2.js`: the OpenAI SDK
call either throws (network/API error) or resolves to a response value. -/
structure Env2 where
  readFile : Except String String
  create : Except String JValue

/-- The result built by the outer `catch (err)` of either extractor. -/
def catchResult (e : String) : LlmResult := ⟨false, none, "", some e⟩

/-- One element of the `gather` map in `llm.js` (lines 97–104): strings kept,
objects contribute their truthy `content` property, everything else is
`JSON.stringify`ed. -/
def gatherElem (P : JsPrims) (it : JValue) : JValue :=
  match it with
  | .str s => .str s
  | .obj fs =>
      match lookupF fs "content" with
      | some v => if v.truthy then v else .str (jsonStringify P (.obj fs))
      | none => .str (jsonStringify P (.obj fs))
  | v => .str (jsonStringify P v)

/-- `Array.prototype.join("\n")` (element conversion as in `join(",")`). -/
def joinNl (P : JsPrims) : List JValue → String
  | [] => ""
  | [v] => joinElem P v
  | v :: rest => joinElem P v ++ "\n" ++ joinNl P rest

/-- The `choices` fallback of the `llm.js` resolver (lines 108–118):
`json.choices && Array.isArray(json.choices) && json.choices[0].message`
— reading `.message` throws on an empty `choices` array or a `null` first
element (`none`); a truthy message yields
`message.content || JSON.stringify(message)`, anything else stringifies
the whole response. -/
def resolveChoices (P : JsPrims) (json : JValue) : Option JValue :=
  match json.getField "choices" with
  | some (.arr xs) =>
      match xs with
      | [] => none
      | h :: _ =>
          match h with
          | .null => none
          | _ =>
              match h.getField "message" with
              | some m =>
                  if m.truthy then
                    some (jsOrVal (m.getField "content") (.str (jsonStringify P m)))
                  else some (.str (jsonStringify P json))
              | none => some (.str (jsonStringify P json))
  | some _ => some (.str (jsonStringify P json))
  | none => some (.str (jsonStringify P json))

/-- The inline response resolver of `llm.js` (lines 93–118): a truthy
`output` is gathered (array) or stringified, otherwise the `choices` shape
is tried, otherwise the whole body is stringified.  `none` models the
TypeError the `choices` probe can throw. -/
def resolveLlmJs (P : JsPrims) (json : JValue) : Option JValue :=
  match json.getField "output" with
  | some out =>
      if out.truthy then
        match out with
        | .arr xs => some (.str (joinNl P (xs.map (gatherElem P))))
        | _ => some (.str (jsonStringify P out))
      else resolveChoices P json
  | none => resolveChoices P json

/-- Model of `extractInvoiceFromFile` from `llm.js`.  The API key is read
only to build the Authorization header — note it is NOT checked, so the
network call happens regardless; every throw site lands in the outer
catch, which returns `{ ok:false, error, raw:"" }`.  The second component
is the trace of external calls made. -/
def extractInvoiceFromFile (P : JsPrims) (apiKey : Option String) (env : EnvJs) :
    LlmResult × List Event :=
  let _ := apiKey
  match env.readFile with
  | .error e => (catchResult e, [.readFile])
  | .ok _ =>
      match env.fetch with
      | .error e => (catchResult e, [.readFile, .network])
      | .ok resp =>
          if ¬ resp.respOk then
            match resp.text with
            | .error e => (catchResult e, [.readFile, .network])
            | .ok t =>
                (⟨false, none, t, some ("LLM call failed: " ++ toString resp.status ++ " " ++ t)⟩,
                 [.readFile, .network])
          else
            match resp.json with
            | .error e => (catchResult e, [.readFile, .network])
            | .ok j =>
                match resolveLlmJs P j with
                | none => (catchResult "TypeError", [.readFile, .network])
                | some rv =>
                    match rv with
                    | .str s => (jsonStage P (P.heDecode s), [.readFile, .network])
                    | _ => (catchResult "TypeError", [.readFile, .network])

/-- One element of the `output`-array map in `extractTextFromResponsesApi`
of `llm-2.js`: strings kept, an object's `content` array joined part-wise
(`c?.text ?? JSON.stringify(c)`), everything else stringified. -/
def respOutputElem (P : JsPrims) (o : JValue) : JValue :=
  match o with
  | .str s => .str s
  | .obj fs =>
      match lookupF fs "content" with
      | some (.arr cs) =>
          .str (joinNl P (cs.map fun c =>
            match c with
            | .null => .str (jsonStringify P .null)
            | c' => jsCoalesce (c'.getField "text") (.str (jsonStringify P c'))))
      | _ => .str (jsonStringify P (.obj fs))
  | v => .str (jsonStringify P v)

/-- One part of the `candidates` branch: `p.text ?? JSON.stringify(p)`;
`none` models the TypeError on a `null` part, which the resolver's own
catch turns into a stringification of the whole response. -/
def candPart (P : JsPrims) (p : JValue) : Option JValue :=
  match p with
  | .null => none
  | p' => some (jsCoalesce (p'.getField "text") (.str (jsonStringify P p')))

/-- The `candidates` fallback of `extractTextFromResponsesApi`
(lines 47–59 of `llm-2.js`). -/
def resolveCandidates (P : JsPrims) (resp : JValue) : String :=
  match resp.getField "candidates" with
  | some (.arr (cand :: _)) =>
      if cand.truthy then
        match cand.getField "content" with
        | some content =>
            if content.truthy then
              match content.getField "parts" with
              | some (.arr ps) =>
                  match ps.mapM (candPart P) with
                  | some vs => joinNl P vs
                  | none => jsonStringify P resp
              | _ => jsonStringify P cand
            else jsonStringify P cand
        | none => jsonStringify P cand
      else jsonStringify P resp
  | _ => jsonStringify P resp

/-- `extractTextFromResponsesApi` from `llm-2.js` (lines 22–66): prefer a
non-blank string `output_text`, then a non-empty join of the `output`
array, then the `candidates` shape, finally stringify the response; its
internal try/catch makes it total. -/
def extractTextFromResponsesApi (P : JsPrims) (resp : JValue) : String :=
  let step2 : String :=
    match resp.getField "output" with
    | some (.arr xs) =>
        let parts := joinNl P (xs.map (respOutputElem P))
        if parts ≠ "" then parts else resolveCandidates P resp
    | _ => resolveCandidates P resp
  match resp.getField "output_text" with
  | some (.str s) => if ¬ (trimChars s.toList).isEmpty then s else step2
  | _ => step2

/-- Model of `extractInvoiceFromFile` from `llm-2.js`: the missing-key check
throws before any file or network access, every other throw lands in the
outer catch; the second component is the trace of external calls made. -/
def extractInvoiceFromFile2 (P : JsPrims) (apiKey : Option String) (env : Env2) :
    LlmResult × List Event :=
  match apiKey with
  | none => (catchResult "OPENAI_API_KEY environment variable not set", [])
  | some _ =>
      match env.readFile with
      | .error e => (catchResult e, [.readFile])
      | .ok _ =>
          match env.create with
          | .error e => (catchResult e, [.readFile, .network])
          | .ok resp =>
              (jsonStage2 P (P.heDecode (extractTextFromResponsesApi P resp)),
               [.readFile, .network])

/-- Character of a decimal digit (the argument is taken mod 10). -/
def digitChar (n : ℕ) : Char := Char.ofNat (48 + n % 10)

/-- Two-digit zero-padded rendering, as in `toISOString` month/day. -/
def pad2 (n : ℕ) : List Char := [digitChar (n / 10), digitChar n]

/-- Four-digit zero-padded rendering, as in `toISOString` years 0–9999. -/
def pad4 (n : ℕ) : List Char :=
  [digitChar (n / 1000), digitChar (n / 100), digitChar (n / 10), digitChar n]

/-- Six-digit zero-padded rendering, as in `toISOString` expanded years. -/
def pad6 (n : ℕ) : List Char :=
  [digitChar (n / 100000), digitChar (n / 10000), digitChar (n / 1000),
   digitChar (n / 100), digitChar (n / 10), digitChar n]

/-- `d.toISOString().slice(0, 10)` on a valid `Date`: for years 0–9999 the
ISO string starts `YYYY-MM-DD…`, so the slice is the date; for larger years
`toISOString` uses the signed six-digit expanded form `+YYYYYY-MM-DD…`,
whose first ten characters are `+YYYYYY-MM` — sign, year and month only. -/
def isoSlice10 (t : DateTriple) : String :=
  if t.year ≤ 9999 then
    String.mk (pad4 t.year ++ '-' :: pad2 t.month ++ '-' :: pad2 t.day)
  else
    String.mk ('+' :: pad6 t.year ++ '-' :: pad2 t.month)

/-- Whether a string is a valid calendar date in canonical `YYYY-MM-DD`
form (the invariant claimed for the stored `invoice_date`). -/
def isCanonicalDateStr (s : String) : Bool :=
  match s.toList with
  | [y1, y2, y3, y4, h1, m1, m2, h2, d1, d2] =>
      h1 = '-' && h2 = '-' &&
      [y1, y2, y3, y4, m1, m2, d1, d2].all (fun c => 48 ≤ c.toNat && c.toNat ≤ 57) &&
      (DateTriple.valid
        ⟨(y1.toNat - 48) * 1000 + (y2.toNat - 48) * 100 + (y3.toNat - 48) * 10 + (y4.toNat - 48),
         (m1.toNat - 48) * 10 + (m2.toNat - 48),
         (d1.toNat - 48) * 10 + (d2.toNat - 48)⟩)
  | _ => false

/-- The date normalization of the extract route (lines 617–622 of
`routes/invoices.js`): a falsy `invoice_date` stays `null`; otherwise
`new Date(...)` is taken and, when valid, stored as
`toISOString().slice(0, 10)`. -/
def normalizeDate (P : JsPrims) (v : Option JValue) : Option String :=
  match v with
  | none => none
  | some val => if ¬ val.truthy then none else (P.dateParseVal val).map isoSlice10

/-- One persisted line-item row (timestamps and ids are not modelled). -/
structure LineRow where
  description : JValue
  quantity : ℚ
  unit_price : ℚ
  line_total : ℚ

/-- The persisted invoice row, restricted to the columns the claims are
about (`llm_model` and the timestamps are set alongside but never read by
any claim).  A SQL `NULL` in a text/JSON column is `JValue.null`; the
numeric columns use `Option ℚ` with `none` for `NULL`. -/
structure InvoiceRow where
  file_path : Option String
  supplier_name : JValue
  invoice_number : JValue
  invoice_date : Option String
  currency : JValue
  subtotal : Option ℚ
  total : Option ℚ
  raw_llm_json : JValue
  confidence : JValue
  status : String

/-- The database state relevant to one invoice: whether the row exists,
its columns, and its line items. -/
structure Db where
  present : Bool
  invoice : InvoiceRow
  items : List LineRow

/-- Which database statements of one extract request fail (the storage
collaborator's behaviour); transaction begin/commit/rollback follow
standard semantics — rollback restores the pre-`BEGIN` state. -/
structure Oracle where
  failReviewUpdate : Bool
  failUpdate : Bool
  failDelete : Bool
  failInsertAt : Option ℕ
  failCommit : Bool

/-- The HTTP outcome of `POST /api/invoices/:id/extract`. -/
inductive HResp where
  | notFound
  | noFile
  | needsReview (details : Option String) (raw : Option String)
  | success
  | serverError
  deriving DecidableEq, Repr

/-- The line-item coercion of the insert loop (lines 691–704 of
`routes/invoices.js`): quantity/unit price via
`x !== undefined && x !== null ? parseFloat(x) || 0 : 0`, line total kept
when `parseFloat` yields a truthy number and otherwise `quantity *
unit_price`.  `none` models the TypeError on a `null` element, which
aborts the transaction. -/
def routeItem (P : JsPrims) (li : JValue) : Option LineRow :=
  if li.isNull then none
  else
      let q : ℚ :=
        match li.getField "quantity" with
        | none => 0
        | some v => if v.isNull then 0 else (jsParseFloat P v).orZero
      let u : ℚ :=
        match li.getField "unit_price" with
        | none => 0
        | some v => if v.isNull then 0 else (jsParseFloat P v).orZero
      let lt : ℚ :=
        match li.getField "line_total" with
        | none => q * u
        | some v =>
            if v.isNull then q * u
            else
              match jsParseFloat P v with
              | .nan => q * u
              | .fin r => if r = 0 then q * u else r
      some ⟨jsCoalesce (li.getField "description") (.str ""), q, u, lt⟩

/-- The insert loop: one INSERT per parsed item, failing at the oracle's
chosen index or on a coercion TypeError. -/
def insertAll (P : JsPrims) (failAt : Option ℕ) (items : List JValue) :
    Option (List LineRow) :=
  go 0 items
where
  go : ℕ → List JValue → Option (List LineRow)
    | _, [] => some []
    | i, li :: rest =>
        if failAt = some i then none
        else
          match routeItem P li with
          | none => none
          | some row => (go (i + 1) rest).map (row :: ·)

/-- The `raw_llm_json` stored on the success path (lines 641–653): a
non-blank raw text is re-parsed and stored as-is when it is valid JSON,
otherwise wrapped together with the parsed object; a blank raw text
stores the parsed object. -/
def rawToStore (parsed : JValue) (raw : String) : JValue :=
  if ¬ (trimChars raw.toList).isEmpty then
    match jsonParse raw with
    | some j => j
    | none => .obj [("parsed", parsed), ("raw", .str raw)]
  else parsed

/-- `const parsed = llmResult.parsed || {}` (line 607). -/
def parsedOf (llm : LlmResult) : JValue :=
  match llm.parsed with
  | some v => if v.truthy then v else .obj []
  | none => .obj []

/-- The audit payload stored on the failure path (lines 582–584):
`llmResult.raw ? { raw } : { error: llmResult.error || "no output" }`. -/
def reviewPayload (llm : LlmResult) : JValue :=
  if llm.raw ≠ "" then .obj [("raw", .str llm.raw)]
  else
    .obj [("error", .str
      (match llm.error with
       | some e => if e ≠ "" then e else "no output"
       | none => "no output"))]

/-- `invoiceRow.x !== null ? Number(invoiceRow.x) : 0` — the fallback to
the invoice's existing numeric column. -/
def moneyFallback : Option ℚ → ℚ
  | some q => q
  | none => 0

/-- `parsed.x !== undefined && parsed.x !== null ? parseFloat(parsed.x) || 0
: fallback` — the stored subtotal/total (lines 626–638). -/
def storedMoney (P : JsPrims) (prior : Option ℚ) (v : Option JValue) : ℚ :=
  match v with
  | none => moneyFallback prior
  | some w => if w.isNull then moneyFallback prior else (jsParseFloat P w).orZero

/-- The invoice row written by the success-path UPDATE (lines 656–683). -/
def successInvoice (P : JsPrims) (inv : InvoiceRow) (parsed : JValue) (raw : String) :
    InvoiceRow :=
  { inv with
    supplier_name := jsCoalesce (parsed.getField "supplier_name") .null,
    invoice_number := jsCoalesce (parsed.getField "invoice_number") .null,
    invoice_date := normalizeDate P (parsed.getField "invoice_date"),
    currency := jsCoalesce (parsed.getField "currency")
      (jsCoalesce (some inv.currency) (.str "INR")),
    subtotal := some (storedMoney P inv.subtotal (parsed.getField "subtotal")),
    total := some (storedMoney P inv.total (parsed.getField "total")),
    raw_llm_json := rawToStore parsed raw,
    confidence := jsCoalesce (parsed.getField "confidence") .null,
    status := "EXTRACTED" }

/-- Model of `POST /api/invoices/:id/extract` (lines 554–748 of
`routes/invoices.js`) from the point where the LLM helper has resolved:
404/400 guards, the single-statement NEEDS_REVIEW update on a not-ok
result, and the success-path transaction (UPDATE, DELETE, INSERTs,
COMMIT) in which any failing statement rolls the state back and answers
HTTP 500 via the catch block. -/
def extractHandler (P : JsPrims) (o : Oracle) (db : Db) (llm : LlmResult) :
    HResp × Db :=
  if ¬ db.present then (.notFound, db)
  else
    match db.invoice.file_path with
    | none => (.noFile, db)
    | some _ =>
        if ¬ llm.ok then
          if o.failReviewUpdate then (.serverError, db)
          else
            (.needsReview llm.error (some llm.raw),
             { db with invoice :=
                { db.invoice with
                  raw_llm_json := reviewPayload llm, status := "NEEDS_REVIEW" } })
        else
          if o.failUpdate then (.serverError, db)
          else if o.failDelete then (.serverError, db)
          else
            match insertAll P o.failInsertAt (lineItemsOf (parsedOf llm)) with
            | none => (.serverError, db)
            | some rows =>
                if o.failCommit then (.serverError, db)
                else
                  (.success,
                   { present := db.present,
                     invoice := successInvoice P db.invoice (parsedOf llm) llm.raw,
                     items := rows })

/-- Fixture: a freshly uploaded invoice row. -/
def sampleInvoice : InvoiceRow :=
  { file_path := some "uploads/f.pdf", supplier_name := .null, invoice_number := .null,
    invoice_date := none, currency := .str "USD", subtotal := none, total := none,
    raw_llm_json := .null, confidence := .null, status := "UPLOADED" }

/-- Fixture: the database holding `sampleInvoice` with no line items. -/
def sampleDb : Db := { present := true, invoice := sampleInvoice, items := [] }

/-- Fixture: a storage behaviour in which every statement succeeds. -/
def allOkOracle : Oracle :=
  { failReviewUpdate := false, failUpdate := false, failDelete := false,
    failInsertAt := none, failCommit := false }

theorem lookupF_setF_self (fs : List (String × JValue)) (k : String) (v : JValue) :
    lookupF (setF fs k v) k = some v := by
  induction fs with
  | nil => simp [setF, lookupF]
  | cons p rest ih =>
    obtain ⟨k', v'⟩ := p
    by_cases h : k' = k
    · simp [setF, h, lookupF]
    · simp [setF, h, lookupF, ih]

theorem lookupF_setF_ne (fs : List (String × JValue)) (k k' : String) (v : JValue)
    (h : k ≠ k') : lookupF (setF fs k v) k' = lookupF fs k' := by
  induction fs with
  | nil => simp [setF, lookupF, h]
  | cons p rest ih =>
    obtain ⟨a, b⟩ := p
    by_cases ha : a = k
    · subst ha
      simp [setF, lookupF, h]
    · simp [setF, ha, lookupF, ih]

theorem setF_self (fs : List (String × JValue)) (k : String) (v : JValue)
    (h : lookupF fs k = some v) : setF fs k v = fs := by
  induction fs with
  | nil => cases h
  | cons p rest ih =>
    obtain ⟨a, b⟩ := p
    by_cases ha : a = k
    · subst ha
      simp [lookupF] at h
      simp [setF, h]
    · simp [lookupF, ha] at h
      simp [setF, ha, ih h]

theorem getField_setField_ne (o : JValue) (k k' : String) (v : JValue) (h : k ≠ k') :
    (o.setField k v).getField k' = o.getField k' := by
  cases o <;> simp [JValue.setField, JValue.getField]
  exact lookupF_setF_ne _ _ _ _ h

theorem getField_setField_obj (fs : List (String × JValue)) (k : String) (v : JValue) :
    ((JValue.obj fs).setField k v).getField k = some v := by
  simp [JValue.setField, JValue.getField, lookupF_setF_self]

theorem setField_self (o : JValue) (k : String) (v : JValue)
    (h : o.getField k = some v) : o.setField k v = o := by
  cases o <;> simp [JValue.getField] at h <;> simp [JValue.setField]
  exact setF_self _ _ _ h

theorem setField_truthy (o : JValue) (k : String) (v : JValue) :
    (o.setField k v).truthy = o.truthy := by
  cases o <;> simp [JValue.setField, JValue.truthy]

theorem JNum.orElse_absorb (a b : JNum) : (a.orElse b).orElse b = a.orElse b := by
  unfold JNum.orElse
  by_cases h : a.truthy = true <;> simp [h]

theorem jsOrVal_absorb (a : Option JValue) (b : JValue) :
    jsOrVal (some (jsOrVal a b)) b = jsOrVal a b := by
  cases a with
  | none => simp [jsOrVal]
  | some v => by_cases hv : v.truthy = true <;> simp [jsOrVal, hv]

theorem prodFactor_num (P : JsPrims) (x : JNum) :
    prodFactor P (some (.num x)) = x.orElse (.fin 0) := by
  unfold prodFactor jsOrVal JNum.orElse
  by_cases hx : x.truthy = true <;> simp [JValue.truthy, hx, jsNumber]

/-- Whenever `Number(v || 0)` is an actual number it agrees with the stored
coercion `Number(v) || 0` (the ECMAScript fact `Number("") = 0` is
needed for the falsy-string case). -/
theorem prodFactor_eq (P : JsPrims) (v : Option JValue)
    (h : prodFactor P v ≠ .nan) :
    prodFactor P v = (jsNumberOpt P v).orElse (.fin 0) := by
  cases v with
  | none =>
      simp [prodFactor, jsOrVal, jsNumberOpt, jsNumber, JNum.orElse, JNum.truthy]
  | some w =>
      by_cases ht : w.truthy = true
      · rw [prodFactor, jsOrVal] at h ⊢
        simp only [ht, if_pos] at h ⊢
        rw [jsNumberOpt]
        cases hn : jsNumber P w with
        | nan => exact absurd hn h
        | fin q =>
            by_cases hq : q = 0 <;> simp [JNum.orElse, JNum.truthy, hq]
      · rw [prodFactor, jsOrVal]
        simp only [ht, if_neg, Bool.false_eq_true, not_false_iff, ite_false]
        rw [jsNumberOpt]
        cases w with
        | null => simp [jsNumber, JNum.orElse, JNum.truthy]
        | bool b =>
            cases b with
            | false => simp [jsNumber, JNum.orElse, JNum.truthy]
            | true => simp [JValue.truthy] at ht
        | num x =>
            cases x with
            | nan => simp [jsNumber, JNum.orElse, JNum.truthy]
            | fin q =>
                have hq : q = 0 := by
                  by_contra hq
                  simp [JValue.truthy, JNum.truthy, hq] at ht
                subst hq
                simp [jsNumber, JNum.orElse, JNum.truthy]
        | str s =>
            have hs : s = "" := by
              by_contra hs
              simp [JValue.truthy, hs] at ht
            subst hs
            simp [jsNumber, P.s2n_empty, JNum.orElse, JNum.truthy]
        | arr xs => simp [JValue.truthy] at ht
        | obj fs => simp [JValue.truthy] at ht

theorem getField_obj (fs : List (String × JValue)) (k : String) :
    (JValue.obj fs).getField k = lookupF fs k := rfl

theorem jsNumber_num (P : JsPrims) (x : JNum) : jsNumber P (.num x) = x := rfl

theorem jsNumberOpt_some (P : JsPrims) (v : JValue) :
    jsNumberOpt P (some v) = jsNumber P v := rfl

/-- The per-line-item hypotheses under which the llm.js coercion behaves as
the specification describes: the item has a `confidence` property and its
`quantity` / `unit_price` survive `Number(x || 0)` without producing NaN. -/
def ItemOk (P : JsPrims) (li : JValue) : Prop :=
  li.getField "confidence" ≠ none ∧
  prodFactor P (li.getField "quantity") ≠ .nan ∧
  prodFactor P (li.getField "unit_price") ≠ .nan

theorem coerceItem_fixed (P : JsPrims) (li ci : JValue)
    (h : coerceItem P li = some ci)
    (hc : li.getField "confidence" ≠ none)
    (hq : prodFactor P (li.getField "quantity") ≠ .nan)
    (hu : prodFactor P (li.getField "unit_price") ≠ .nan) :
    coerceItem P ci = some ci := by
  obtain ⟨cv, hcv⟩ : ∃ cv, li.getField "confidence" = some cv := by
    cases hgc : li.getField "confidence" with
    | none => exact absurd hgc hc
    | some cv => exact ⟨cv, rfl⟩
  rw [coerceItem, hcv] at h
  by_cases hn : li.isNull = true
  · rw [if_pos hn] at h; cases h
  · rw [if_neg hn] at h
    injection h with h
    subst h
    rw [coerceItem, if_neg (by simp [JValue.isNull])]
    simp only [getField_obj, lookupF, String.reduceEq, reduceIte, jsOrVal_absorb,
      prodFactor_num, jsNumberOpt_some, jsNumber_num, JNum.orElse_absorb,
      prodFactor_eq P _ hq, prodFactor_eq P _ hu]

theorem mapOpt_fixed (P : JsPrims) (xs ys : List JValue)
    (h : mapOpt (coerceItem P) xs = some ys)
    (hok : ∀ li ∈ xs, ItemOk P li) :
    mapOpt (coerceItem P) ys = some ys := by
  induction xs generalizing ys with
  | nil =>
      rw [mapOpt] at h
      injection h with h
      subst h
      rfl
  | cons x xs ih =>
      rw [mapOpt] at h
      cases hx : coerceItem P x with
      | none => rw [hx] at h; cases h
      | some y =>
          rw [hx] at h
          cases hrest : mapOpt (coerceItem P) xs with
          | none => rw [hrest] at h; cases h
          | some rest =>
              rw [hrest] at h
              injection h with h
              subst h
              obtain ⟨hc, hq, hu⟩ := hok x (by simp)
              have hy := coerceItem_fixed P x y hx hc hq hu
              rw [mapOpt, hy, ih rest hrest (fun li hli => hok li (by simp [hli]))]
              rfl

/-- Shape of a money field (`subtotal`/`total`) after one coercion pass:
absent, `null`, or a number of the form `Number(v) || 0`. -/
def MoneyShape (o : JValue) (k : String) : Prop :=
  o.getField k = none ∨ o.getField k = some .null ∨
  ∃ x : JNum, o.getField k = some (.num (x.orElse (.fin 0)))

theorem getField_coerceMoney_ne (P : JsPrims) (k k' : String) (o : JValue)
    (h : k ≠ k') : (coerceMoney P k o).getField k' = o.getField k' := by
  unfold coerceMoney
  split
  · rfl
  · split
    · rfl
    · exact getField_setField_ne o k k' _ h

theorem coerceMoney_truthy (P : JsPrims) (k : String) (o : JValue) :
    (coerceMoney P k o).truthy = o.truthy := by
  unfold coerceMoney
  split
  · rfl
  · split
    · rfl
    · exact setField_truthy o k _

theorem coerceMoney_shape (P : JsPrims) (k : String) (o : JValue) :
    MoneyShape (coerceMoney P k o) k := by
  unfold MoneyShape coerceMoney
  split
  · rename_i hf
    left; exact hf
  · rename_i v hf
    split
    · rename_i hv
      right; left
      have hvn : v = .null := by
        cases v <;> first | rfl | simp [JValue.isNull] at hv
      rw [hf, hvn]
    · rename_i hv
      right; right
      refine ⟨jsNumber P v, ?_⟩
      cases o with
      | obj fs => exact getField_setField_obj fs k _
      | null => simp [JValue.getField] at hf
      | bool b => simp [JValue.getField] at hf
      | num x => simp [JValue.getField] at hf
      | str s => simp [JValue.getField] at hf
      | arr xs => simp [JValue.getField] at hf

theorem coerceMoney_noop (P : JsPrims) (k : String) (o : JValue)
    (h : MoneyShape o k) : coerceMoney P k o = o := by
  unfold coerceMoney
  rcases h with h | h | ⟨x, h⟩
  · rw [h]
  · rw [h]
    dsimp only
    simp [JValue.isNull]
  · rw [h]
    dsimp only
    rw [if_neg (by simp [JValue.isNull])]
    rw [jsNumber_num, JNum.orElse_absorb]
    exact setField_self o k _ h

theorem coerceTop_fixed (P : JsPrims) (p c : JValue)
    (h : coerceTop P p = some c)
    (hok : ∀ li ∈ lineItemsOf p, ItemOk P li) :
    coerceTop P c = some c := by
  rw [coerceTop] at h
  by_cases hp : p.truthy = true
  · rw [if_neg (by simp [hp])] at h
    have hTr : (coerceMoney P "total" (coerceMoney P "subtotal" p)).truthy = true := by
      rw [coerceMoney_truthy, coerceMoney_truthy]; exact hp
    have hLi : lineItemsOf (coerceMoney P "total" (coerceMoney P "subtotal" p)) =
        lineItemsOf p := by
      unfold lineItemsOf
      rw [getField_coerceMoney_ne _ _ _ _ (by decide),
          getField_coerceMoney_ne _ _ _ _ (by decide)]
    have hSh1 : MoneyShape (coerceMoney P "total" (coerceMoney P "subtotal" p)) "subtotal" := by
      have hs := coerceMoney_shape P "subtotal" p
      unfold MoneyShape at hs ⊢
      rw [getField_coerceMoney_ne _ _ _ _ (by decide)]
      exact hs
    have hSh2 : MoneyShape (coerceMoney P "total" (coerceMoney P "subtotal" p)) "total" :=
      coerceMoney_shape P "total" _
    generalize hg : coerceMoney P "total" (coerceMoney P "subtotal" p) = s2 at h hTr hLi hSh1 hSh2
    cases hm : mapOpt (coerceItem P) (lineItemsOf s2) with
    | none => rw [hm] at h; cases h
    | some xs =>
        rw [hm] at h
        injection h with h
        subst h
        rw [coerceTop]
        rw [if_neg (by simp [setField_truthy, hTr])]
        have hA : coerceMoney P "subtotal" (s2.setField "line_items" (.arr xs)) =
            s2.setField "line_items" (.arr xs) := by
          apply coerceMoney_noop
          unfold MoneyShape at hSh1 ⊢
          rw [getField_setField_ne _ _ _ _ (by decide)]
          exact hSh1
        have hB : coerceMoney P "total" (s2.setField "line_items" (.arr xs)) =
            s2.setField "line_items" (.arr xs) := by
          apply coerceMoney_noop
          unfold MoneyShape at hSh2 ⊢
          rw [getField_setField_ne _ _ _ _ (by decide)]
          exact hSh2
        rw [hA, hB]
        have hok2 : ∀ li ∈ lineItemsOf s2, ItemOk P li := by
          rw [hLi]; exact hok
        cases s2 with
        | obj fs =>
            have hxs : lineItemsOf ((JValue.obj fs).setField "line_items" (.arr xs)) = xs := by
              unfold lineItemsOf
              rw [getField_setField_obj]
            rw [hxs]
            rw [mapOpt_fixed P _ xs hm hok2]
            dsimp only
            rw [setField_self ((JValue.obj fs).setField "line_items" (JValue.arr xs))
                  "line_items" (JValue.arr xs)
                  (getField_setField_obj fs "line_items" (JValue.arr xs))]
        | null =>
            simp only [lineItemsOf, JValue.getField, mapOpt] at hm
            injection hm with hm
            subst hm
            rfl
        | bool b =>
            simp only [lineItemsOf, JValue.getField, mapOpt] at hm
            injection hm with hm
            subst hm
            rfl
        | num x =>
            simp only [lineItemsOf, JValue.getField, mapOpt] at hm
            injection hm with hm
            subst hm
            rfl
        | str s =>
            simp only [lineItemsOf, JValue.getField, mapOpt] at hm
            injection hm with hm
            subst hm
            rfl
        | arr ys =>
            simp only [lineItemsOf, JValue.getField, mapOpt] at hm
            injection hm with hm
            subst hm
            rfl
  · rw [if_pos (by simpa using hp)] at h
    injection h with h
    subst h
    rw [coerceTop, if_pos (by simpa using hp)]

theorem braceScan_none_of_noClose (l : List Char) (h : lastIdxOf rbrace l = none) :
    braceScan l = none := by
  induction l with
  | nil => rfl
  | cons c rest ih =>
      rw [lastIdxOf] at h
      cases hr : lastIdxOf rbrace rest with
      | some j => rw [hr] at h; cases h
      | none =>
          rw [hr] at h
          have hb : braceMatchAt (c :: rest) = none := by
            rw [braceMatchAt]
            by_cases hc : c = lbrace
            · rw [if_pos hc, hr]
            · rw [if_neg hc]
          rw [braceScan, hb]
          exact ih hr

theorem braceScan_eq_slice (l : List Char) : braceScan l = firstToLastSlice l := by
  induction l with
  | nil => rfl
  | cons c rest ih =>
      by_cases hc : c = lbrace
      · subst hc
        rw [braceScan, braceMatchAt, if_pos rfl,
            firstToLastSlice, firstIdxOf, if_pos rfl, lastIdxOf]
        cases hr : lastIdxOf rbrace rest with
        | some j =>
            dsimp only
            rw [if_pos (show 0 < j + 1 by omega)]
            have h2 : j + 1 - 0 + 1 = j + 2 := by omega
            rw [h2]
            simp [List.take_succ_cons]
        | none =>
            dsimp only
            rw [if_neg (by decide)]
            exact braceScan_none_of_noClose rest hr
      · have hb : braceMatchAt (c :: rest) = none := by
          rw [braceMatchAt, if_neg hc]
        rw [braceScan, hb]
        dsimp only
        rw [ih, firstToLastSlice, firstToLastSlice, firstIdxOf, if_neg hc, lastIdxOf]
        cases hf : firstIdxOf lbrace rest with
        | none =>
            cases hr : lastIdxOf rbrace rest with
            | some j => simp only [Option.map_none']
            | none => simp only [Option.map_none']
        | some i =>
            cases hr : lastIdxOf rbrace rest with
            | some j =>
                simp only [Option.map_some']
                by_cases hij : i < j
                · rw [if_pos hij, if_pos (show i + 1 < j + 1 by omega)]
                  rw [List.drop_succ_cons]
                  have h3 : j + 1 - (i + 1) + 1 = j - i + 1 := by omega
                  rw [h3]
                · rw [if_neg hij, if_neg (show ¬ i + 1 < j + 1 by omega)]
            | none =>
                simp only [Option.map_some']
                by_cases hcr : c = rbrace
                · rw [if_pos hcr]
                  dsimp only
                  rw [if_neg (show ¬ i + 1 < 0 by omega)]
                · rw [if_neg hcr]

mutual
/-- Decidable equality for `JValue` (written by hand: the automatic
derivation does not support this nested inductive). -/
def jdecEq : (a b : JValue) → Decidable (a = b)
  | .null, .null => isTrue rfl
  | .null, .bool _ => isFalse nofun
  | .null, .num _ => isFalse nofun
  | .null, .str _ => isFalse nofun
  | .null, .arr _ => isFalse nofun
  | .null, .obj _ => isFalse nofun
  | .bool _, .null => isFalse nofun
  | .bool x, .bool y =>
      match decEq x y with
      | isTrue h => isTrue (by rw [h])
      | isFalse h => isFalse (fun e => h (by cases e; rfl))
  | .bool _, .num _ => isFalse nofun
  | .bool _, .str _ => isFalse nofun
  | .bool _, .arr _ => isFalse nofun
  | .bool _, .obj _ => isFalse nofun
  | .num _, .null => isFalse nofun
  | .num _, .bool _ => isFalse nofun
  | .num x, .num y =>
      match decEq x y with
      | isTrue h => isTrue (by rw [h])
      | isFalse h => isFalse (fun e => h (by cases e; rfl))
  | .num _, .str _ => isFalse nofun
  | .num _, .arr _ => isFalse nofun
  | .num _, .obj _ => isFalse nofun
  | .str _, .null => isFalse nofun
  | .str _, .bool _ => isFalse nofun
  | .str _, .num _ => isFalse nofun
  | .str x, .str y =>
      match decEq x y with
      | isTrue h => isTrue (by rw [h])
      | isFalse h => isFalse (fun e => h (by cases e; rfl))
  | .str _, .arr _ => isFalse nofun
  | .str _, .obj _ => isFalse nofun
  | .arr _, .null => isFalse nofun
  | .arr _, .bool _ => isFalse nofun
  | .arr _, .num _ => isFalse nofun
  | .arr _, .str _ => isFalse nofun
  | .arr xs, .arr ys =>
      match jdecEqList xs ys with
      | isTrue h => isTrue (by rw [h])
      | isFalse h => isFalse (fun e => h (by cases e; rfl))
  | .arr _, .obj _ => isFalse nofun
  | .obj _, .null => isFalse nofun
  | .obj _, .bool _ => isFalse nofun
  | .obj _, .num _ => isFalse nofun
  | .obj _, .str _ => isFalse nofun
  | .obj _, .arr _ => isFalse nofun
  | .obj fs, .obj gs =>
      match jdecEqFields fs gs with
      | isTrue h => isTrue (by rw [h])
      | isFalse h => isFalse (fun e => h (by cases e; rfl))

def jdecEqList : (xs ys : List JValue) → Decidable (xs = ys)
  | [], [] => isTrue rfl
  | [], _ :: _ => isFalse nofun
  | _ :: _, [] => isFalse nofun
  | x :: xs, y :: ys =>
      match jdecEq x y with
      | isFalse h1 => isFalse (fun e => h1 (by cases e; rfl))
      | isTrue h1 =>
          match jdecEqList xs ys with
          | isTrue h2 => isTrue (by rw [h1, h2])
          | isFalse h2 => isFalse (fun e => h2 (by cases e; rfl))

def jdecEqFields : (fs gs : List (String × JValue)) → Decidable (fs = gs)
  | [], [] => isTrue rfl
  | [], _ :: _ => isFalse nofun
  | _ :: _, [] => isFalse nofun
  | (k, v) :: fs, (k2, v2) :: gs =>
      match decEq k k2 with
      | isFalse h1 => isFalse (fun e => h1 (by cases e; rfl))
      | isTrue h1 =>
          match jdecEq v v2 with
          | isFalse h2 => isFalse (fun e => h2 (by cases e; rfl))
          | isTrue h2 =>
              match jdecEqFields fs gs with
              | isTrue h3 => isTrue (by rw [h1, h2, h3])
              | isFalse h3 => isFalse (fun e => h3 (by cases e; rfl))
end


instance : DecidableEq JValue := jdecEq

/-- C1 (amended): in the coercion step of `extractInvoiceFromFile`, for
every line item whose `line_total` is absent, `null`, or does not coerce to
a number, and whose `quantity` and `unit_price` survive `Number(x || 0)`
without NaN, the coerced `line_total` equals the coerced `quantity` times
the coerced `unit_price` exactly; in particular the line item
`{ "quantity": "3", "unit_price": "12.5" }` coerces to quantity 3,
unit price 12.5, line total 37.5. -/
theorem c1_line_total_product :
    (∀ (P : JsPrims) (li ci : JValue),
      coerceItem P li = some ci →
      (li.getField "line_total" = none ∨ li.getField "line_total" = some .null ∨
        jsNumberOpt P (li.getField "line_total") = .nan) →
      prodFactor P (li.getField "quantity") ≠ .nan →
      prodFactor P (li.getField "unit_price") ≠ .nan →
      ∃ a b : ℚ,
        ci.getField "quantity" = some (.num (.fin a)) ∧
        ci.getField "unit_price" = some (.num (.fin b)) ∧
        ci.getField "line_total" = some (.num (.fin (a * b)))) ∧
    coerceItem defaultPrims
        (.obj [("quantity", .str "3"), ("unit_price", .str "12.5")]) =
      some (.obj [("description", .str ""), ("quantity", .num (.fin 3)),
        ("unit_price", .num (.fin (25/2))), ("line_total", .num (.fin (75/2))),
        ("confidence", .null)]) := by
  constructor
  · intro P li ci h hlt hq hu
    obtain ⟨a, ha⟩ : ∃ a, prodFactor P (li.getField "quantity") = .fin a := by
      cases hx : prodFactor P (li.getField "quantity") with
      | nan => exact absurd hx hq
      | fin q => exact ⟨q, rfl⟩
    obtain ⟨b, hb⟩ : ∃ b, prodFactor P (li.getField "unit_price") = .fin b := by
      cases hx : prodFactor P (li.getField "unit_price") with
      | nan => exact absurd hx hu
      | fin q => exact ⟨q, rfl⟩
    rw [coerceItem] at h
    by_cases hn : li.isNull = true
    · rw [if_pos hn] at h; cases h
    · rw [if_neg hn] at h
      injection h with h
      subst h
      refine ⟨a, b, ?_, ?_, ?_⟩
      · simp only [getField_obj, lookupF, String.reduceEq, reduceIte]
        rw [← prodFactor_eq P _ hq, ha]
      · simp only [getField_obj, lookupF, String.reduceEq, reduceIte]
        rw [← prodFactor_eq P _ hu, hb]
      · simp only [getField_obj, lookupF, String.reduceEq, reduceIte]
        rw [ha, hb]
        have hprod : (JNum.fin a).mul (.fin b) = .fin (a * b) := rfl
        rw [hprod]
        rcases hlt with h0 | h0 | h0
        · rw [h0]; rfl
        · rw [h0]
          simp [jsNumberOpt, jsNumber, JNum.orElse, JNum.truthy]
        · rw [h0]; rfl
  · decide

/-- C1 counterexample: the line item `{ "quantity": "abc", "unit_price":
"2" }` has no `line_total`, yet it coerces to quantity `0`, unit price `2`
and line total `NaN`, which is not the product `0 × 2 = 0` — the claim's
unconditional equation fails on the code. -/
theorem c1_counterexample :
    (coerceItem defaultPrims (.obj [("quantity", .str "abc"), ("unit_price", .str "2")])).bind
        (fun ci => ci.getField "line_total") = some (.num .nan) ∧
    (coerceItem defaultPrims (.obj [("quantity", .str "abc"), ("unit_price", .str "2")])).bind
        (fun ci => ci.getField "quantity") = some (.num (.fin 0)) ∧
    (coerceItem defaultPrims (.obj [("quantity", .str "abc"), ("unit_price", .str "2")])).bind
        (fun ci => ci.getField "unit_price") = some (.num (.fin 2)) ∧
    JNum.nan ≠ (JNum.fin 0).mul (.fin 2) := by
  refine ⟨by decide, by decide, by decide, by decide⟩

instance (P : JsPrims) : DecidablePred (ItemOk P) := fun li => by
  unfold ItemOk
  infer_instance

/-- C2 (amended): the sanitize/coerce block of `extractInvoiceFromFile` is
a fixed point on its own output for every parsed object whose line items
each carry a `confidence` property and whose `quantity`/`unit_price`
survive `Number(x || 0)` without NaN (subtotal, total, description,
quantity, unit price and line total are idempotent unconditionally; the
exception fields are exactly those of the counterexample). -/
theorem c2_coercion_idempotent :
    ∀ (P : JsPrims) (p c : JValue),
      coerceTop P p = some c →
      (∀ li ∈ lineItemsOf p, ItemOk P li) →
      coerceTop P c = some c :=
  coerceTop_fixed

/-- Witness for the idempotence theorem at a concrete parsed object. -/
theorem c2_coercion_idempotent_witness :
    coerceTop defaultPrims
        (.obj [("subtotal", .num (.fin 5)),
          ("line_items", .arr [.obj [("description", .str ""),
            ("quantity", .num (.fin 2)), ("unit_price", .num (.fin 3)),
            ("line_total", .num (.fin 6)), ("confidence", .num (.fin 0))]])]) =
      some (.obj [("subtotal", .num (.fin 5)),
        ("line_items", .arr [.obj [("description", .str ""),
          ("quantity", .num (.fin 2)), ("unit_price", .num (.fin 3)),
          ("line_total", .num (.fin 6)), ("confidence", .num (.fin 0))]])]) :=
  c2_coercion_idempotent defaultPrims
    (.obj [("subtotal", .str "5"),
      ("line_items", .arr [.obj [("quantity", .num (.fin 2)),
        ("unit_price", .str "3"), ("confidence", .null)]])])
    (.obj [("subtotal", .num (.fin 5)),
      ("line_items", .arr [.obj [("description", .str ""),
        ("quantity", .num (.fin 2)), ("unit_price", .num (.fin 3)),
        ("line_total", .num (.fin 6)), ("confidence", .num (.fin 0))]])])
    (by decide) (by decide)

/-- C2 counterexample: coercion is NOT a fixed point in general — a line
item with no `confidence` property coerces to `confidence: null` on the
first pass and to `confidence: 0` on the second, so re-running coercion on
its own output changes the value. -/
theorem c2_counterexample :
    coerceTop defaultPrims (.obj [("line_items", .arr [.obj []])]) =
      some (.obj [("line_items", .arr [.obj [("description", .str ""),
        ("quantity", .num (.fin 0)), ("unit_price", .num (.fin 0)),
        ("line_total", .num (.fin 0)), ("confidence", .null)]])]) ∧
    coerceTop defaultPrims (.obj [("line_items", .arr [.obj [("description", .str ""),
        ("quantity", .num (.fin 0)), ("unit_price", .num (.fin 0)),
        ("line_total", .num (.fin 0)), ("confidence", .null)]])]) =
      some (.obj [("line_items", .arr [.obj [("description", .str ""),
        ("quantity", .num (.fin 0)), ("unit_price", .num (.fin 0)),
        ("line_total", .num (.fin 0)), ("confidence", .num (.fin 0))]])]) ∧
    (JValue.obj [("line_items", .arr [.obj [("description", .str ""),
        ("quantity", .num (.fin 0)), ("unit_price", .num (.fin 0)),
        ("line_total", .num (.fin 0)), ("confidence", .num (.fin 0))]])]) ≠
      .obj [("line_items", .arr [.obj [("description", .str ""),
        ("quantity", .num (.fin 0)), ("unit_price", .num (.fin 0)),
        ("line_total", .num (.fin 0)), ("confidence", .null)]])] := by
  refine ⟨by decide, by decide, by decide⟩

/-- C3: the JSON-extraction step of `extractInvoiceFromFile` attempts to
parse exactly the substring running from the first opening brace to the
last closing brace of the resolved text — the leftmost greedy match of
`/{[\s\S]*}/` coincides with that slice on every text — and it reports the
malformed-JSON failure exactly when that substring is unparsable; on the
scenario text the extraction succeeds and coercion yields total = 100. -/
theorem c3_greedy_brace_extraction :
    (∀ l : List Char, braceScan l = firstToLastSlice l) ∧
    (∀ (P : JsPrims) (raw : String),
      (jsonStage P raw).error = some "LLM returned non-JSON or malformed JSON" ↔
        (∃ m, firstToLastSlice raw.toList = some m ∧ jsonParse (String.mk m) = none)) ∧
    (jsonStage defaultPrims
      "Here is the JSON: \x7b\"invoice_number\":\"INV-1\",\"total\":\"100\"\x7d").ok = true ∧
    ((jsonStage defaultPrims
      "Here is the JSON: \x7b\"invoice_number\":\"INV-1\",\"total\":\"100\"\x7d").parsed.bind
        (fun v => v.getField "total")) = some (.num (.fin 100)) := by
  refine ⟨braceScan_eq_slice, ?_, by decide, by decide⟩
  intro P raw
  rw [← braceScan_eq_slice]
  unfold jsonStage
  cases hb : braceScan raw.toList with
  | none => simp [hb]
  | some m =>
      cases hp : jsonParse (String.mk m) with
      | none => simp [hb, hp]
      | some v =>
          cases hc : coerceTop P v with
          | none => simp [hb, hp, hc]
          | some c => simp [hb, hp, hc]

theorem braceScan_none_of_noOpen (l : List Char) (h : ∀ c ∈ l, c ≠ lbrace) :
    braceScan l = none := by
  induction l with
  | nil => rfl
  | cons c rest ih =>
      have hb : braceMatchAt (c :: rest) = none := by
        rw [braceMatchAt, if_neg (h c (by simp))]
      rw [braceScan, hb]
      exact ih (fun x hx => h x (by simp [hx]))

/-- C4 (amended): a resolved model text containing no braces yields the
NoJsonFound failure carrying the raw text verbatim, and the reconciliation
step sets the invoice's status to NEEDS_REVIEW; when the raw text is
non-empty it is persisted in the audit field as `{ raw: text }` (an empty
raw text stores an `{ error: ... }` marker instead — see the
counterexample). -/
theorem c4_no_json_needs_review (P : JsPrims) (t : String)
    (h1 : ∀ c ∈ t.toList, c ≠ lbrace ∧ c ≠ rbrace)
    (h2 : t ≠ "")
    (o : Oracle) (db : Db)
    (h3 : db.present = true)
    (h4 : db.invoice.file_path ≠ none)
    (h5 : o.failReviewUpdate = false) :
    jsonStage P t = ⟨false, none, t, some "No JSON found in LLM output"⟩ ∧
    (extractHandler P o db (jsonStage P t)).1 =
      .needsReview (some "No JSON found in LLM output") (some t) ∧
    (extractHandler P o db (jsonStage P t)).2.invoice.status = "NEEDS_REVIEW" ∧
    (extractHandler P o db (jsonStage P t)).2.invoice.raw_llm_json =
      .obj [("raw", .str t)] := by
  have hstage : jsonStage P t = ⟨false, none, t, some "No JSON found in LLM output"⟩ := by
    unfold jsonStage
    rw [braceScan_none_of_noOpen t.toList (fun c hc => (h1 c hc).1)]
  have hh : extractHandler P o db (jsonStage P t) =
      (.needsReview (some "No JSON found in LLM output") (some t),
       ⟨db.present,
        { db.invoice with raw_llm_json := JValue.obj [("raw", JValue.str t)], status := "NEEDS_REVIEW" },
        db.items⟩) := by
    rw [hstage]
    unfold extractHandler
    rw [if_neg (by simp [h3])]
    cases hf : db.invoice.file_path with
    | none => exact absurd hf h4
    | some fp =>
        dsimp only
        rw [if_pos (by decide), if_neg (by simp [h5])]
        unfold reviewPayload
        rw [if_pos (by simpa using h2)]
  exact ⟨hstage, by rw [hh], by rw [hh], by rw [hh]⟩

theorem c4_no_json_needs_review_witness :
    jsonStage defaultPrims "plain text" =
      ⟨false, none, "plain text", some "No JSON found in LLM output"⟩ ∧
    (extractHandler defaultPrims allOkOracle sampleDb
        (jsonStage defaultPrims "plain text")).1 =
      .needsReview (some "No JSON found in LLM output") (some "plain text") ∧
    (extractHandler defaultPrims allOkOracle sampleDb
        (jsonStage defaultPrims "plain text")).2.invoice.status = "NEEDS_REVIEW" ∧
    (extractHandler defaultPrims allOkOracle sampleDb
        (jsonStage defaultPrims "plain text")).2.invoice.raw_llm_json =
      .obj [("raw", .str "plain text")] :=
  c4_no_json_needs_review defaultPrims "plain text" (by decide) (by decide)
    allOkOracle sampleDb (by decide) (by decide) (by decide)

/-- C4 counterexample: for the empty resolved text (which contains no
braces) the raw text is NOT persisted in the audit field — the stored
payload is `{ error: "No JSON found in LLM output" }`, which has no `raw`
key — although the status still becomes NEEDS_REVIEW. -/
theorem c4_counterexample :
    (jsonStage defaultPrims "").ok = false ∧
    (jsonStage defaultPrims "").raw = "" ∧
    (extractHandler defaultPrims allOkOracle sampleDb (jsonStage defaultPrims "")).2.invoice.status =
      "NEEDS_REVIEW" ∧
    (extractHandler defaultPrims allOkOracle sampleDb (jsonStage defaultPrims "")).2.invoice.raw_llm_json =
      .obj [("error", .str "No JSON found in LLM output")] ∧
    ((extractHandler defaultPrims allOkOracle sampleDb (jsonStage defaultPrims "")).2.invoice.raw_llm_json).getField
      "raw" = none := by
  refine ⟨by decide, by decide, by decide, by decide, by decide⟩

/-- Fixture: a minimal successful LLM result. -/
def sampleLlmOk : LlmResult := ⟨true, some (.obj []), "", none⟩

/-- Fixture: a successful LLM result with one line item. -/
def sampleLlmItem : LlmResult :=
  ⟨true, some (.obj [("line_items", .arr [.obj [("quantity", .num (.fin 2))]])]), "", none⟩

/-- C5 (amended): an extraction attempt on an invoice with a stored file
never leaves the status as UPLOADED — it becomes EXTRACTED or NEEDS_REVIEW
— UNLESS the attempt fails on infrastructure (a database statement fails
inside the attempt), in which case the handler answers HTTP 500 and the
rollback leaves the prior state, including a prior UPLOADED status (see
the counterexample). -/
theorem c5_status_not_uploaded (P : JsPrims) (o : Oracle) (db : Db) (llm : LlmResult)
    (h1 : db.present = true)
    (h2 : db.invoice.file_path ≠ none)
    (h3 : (extractHandler P o db llm).1 ≠ .serverError) :
    (extractHandler P o db llm).2.invoice.status = "EXTRACTED" ∨
    (extractHandler P o db llm).2.invoice.status = "NEEDS_REVIEW" := by
  unfold extractHandler at h3 ⊢
  rw [if_neg (by simp [h1])] at h3 ⊢
  cases hf : db.invoice.file_path with
  | none => exact absurd hf h2
  | some fp =>
      dsimp only at h3 ⊢
      by_cases hok : llm.ok = true
      · by_cases hU : o.failUpdate = true
        · simp [hf, hok, hU] at h3
        · by_cases hD : o.failDelete = true
          · simp [hf, hok, hU, hD] at h3
          · cases hins : insertAll P o.failInsertAt (lineItemsOf (parsedOf llm)) with
            | none => simp [hf, hok, hU, hD, hins] at h3
            | some rows =>
                by_cases hC : o.failCommit = true
                · simp [hf, hok, hU, hD, hins, hC] at h3
                · simp [hok, hU, hD, hins, hC]
                  left
                  rfl
      · by_cases hR : o.failReviewUpdate = true
        · simp [hf, hok, hR] at h3
        · simp [hok, hR]

theorem c5_status_not_uploaded_witness :
    (extractHandler defaultPrims allOkOracle sampleDb sampleLlmOk).2.invoice.status =
      "EXTRACTED" ∨
    (extractHandler defaultPrims allOkOracle sampleDb sampleLlmOk).2.invoice.status =
      "NEEDS_REVIEW" :=
  c5_status_not_uploaded defaultPrims allOkOracle sampleDb sampleLlmOk
    (by decide) (by decide) (by decide)

/-- C5 counterexample: when the line-item INSERT fails, the transaction is
rolled back, the handler answers HTTP 500, and the invoice status stays
UPLOADED — the attempt leaves the invoice stuck in UPLOADED, contrary to the
claim that this never happens for any failure mode. -/
theorem c5_counterexample :
    (extractHandler defaultPrims { allOkOracle with failInsertAt := some 0 }
        sampleDb sampleLlmItem).1 = .serverError ∧
    (extractHandler defaultPrims { allOkOracle with failInsertAt := some 0 }
        sampleDb sampleLlmItem).2.invoice.status = "UPLOADED" ∧
    sampleDb.invoice.status = "UPLOADED" := by
  refine ⟨by decide, by decide, by decide⟩

/-- C6: if any statement of the success-path transaction after BEGIN fails
(UPDATE, DELETE, any line-item INSERT, or COMMIT), the handler rolls the
database back to exactly its pre-transaction state — invoice fields and line
items unchanged — and reports HTTP 500, an outcome distinct from every
NEEDS_REVIEW response. -/
theorem c6_transaction_atomic (P : JsPrims) (o : Oracle) (db : Db) (llm : LlmResult)
    (h1 : db.present = true)
    (h2 : db.invoice.file_path ≠ none)
    (h3 : llm.ok = true)
    (h4 : o.failUpdate = true ∨ o.failDelete = true ∨
          insertAll P o.failInsertAt (lineItemsOf (parsedOf llm)) = none ∨
          o.failCommit = true) :
    extractHandler P o db llm = (.serverError, db) ∧
    ∀ d r, (HResp.serverError ≠ HResp.needsReview d r) := by
  constructor
  · unfold extractHandler
    rw [if_neg (by simp [h1])]
    cases hf : db.invoice.file_path with
    | none => exact absurd hf h2
    | some fp =>
        dsimp only
        rw [if_neg (by simp [h3])]
        rcases h4 with hU | hD | hI | hC
        · simp [hU]
        · by_cases hU : o.failUpdate = true
          · simp [hU]
          · simp [hU, hD]
        · by_cases hU : o.failUpdate = true
          · simp [hU]
          · by_cases hD : o.failDelete = true
            · simp [hU, hD]
            · simp [hU, hD, hI]
        · by_cases hU : o.failUpdate = true
          · simp [hU]
          · by_cases hD : o.failDelete = true
            · simp [hU, hD]
            · cases hI : insertAll P o.failInsertAt (lineItemsOf (parsedOf llm)) with
              | none => simp [hU, hD, hI]
              | some rows => simp [hU, hD, hI, hC]
  · intro d r h
    exact HResp.noConfusion h

theorem c6_transaction_atomic_witness :
    extractHandler defaultPrims { allOkOracle with failInsertAt := some 0 }
      sampleDb sampleLlmItem = (.serverError, sampleDb) ∧
    ∀ d r, (HResp.serverError ≠ HResp.needsReview d r) :=
  c6_transaction_atomic defaultPrims { allOkOracle with failInsertAt := some 0 }
    sampleDb sampleLlmItem (by decide) (by decide) (by decide)
    (Or.inr (Or.inr (Or.inl rfl)))

/-- Fixture: the environment as seen by `llm.js` when the file is readable
but the network connection is refused. -/
def envNoKey : EnvJs := ⟨.ok "QUJD", .error "ECONNREFUSED"⟩

/-- C7 (amended): the `llm-2.js` extractor fails fast on an absent API key —
for every environment behaviour it returns ok:false carrying the
configuration diagnostic and performs no file read and no network call.
The `llm.js` variant — the one `routes/invoices.js` actually imports — does
NOT check the key and contacts the backend anyway (see the
counterexample). -/
theorem c7_fail_fast (P : JsPrims) (env : Env2) :
    (extractInvoiceFromFile2 P none env).1.ok = false ∧
    (extractInvoiceFromFile2 P none env).1.error =
      some "OPENAI_API_KEY environment variable not set" ∧
    (extractInvoiceFromFile2 P none env).2 = [] ∧
    Event.network ∉ (extractInvoiceFromFile2 P none env).2 :=
  ⟨rfl, rfl, rfl, by simp [extractInvoiceFromFile2]⟩

/-- C7 counterexample: `extractInvoiceFromFile` of `llm.js`, called with no
API key, still performs the network call (the trace contains the network
event) and surfaces the transport error, not a configuration diagnostic. -/
theorem c7_counterexample :
    Event.network ∈ (extractInvoiceFromFile defaultPrims none envNoKey).2 ∧
    (extractInvoiceFromFile defaultPrims none envNoKey).1.error =
      some "ECONNREFUSED" := by
  refine ⟨by decide, by decide⟩

theorem digitChar_toNat (n : ℕ) : (digitChar n).toNat = 48 + n % 10 := by
  have h : n % 10 < 10 := Nat.mod_lt _ (by norm_num)
  have hv : Nat.isValidChar (48 + n % 10) := Or.inl (by omega)
  unfold digitChar Char.ofNat
  rw [dif_pos hv]
  rfl

theorem isoSlice10_canonical (t : DateTriple) (hv : t.valid = true)
    (hy : t.year ≤ 9999) : isCanonicalDateStr (isoSlice10 t) = true := by
  obtain ⟨y, m, d⟩ := t
  simp only [DateTriple.valid, Bool.and_eq_true, decide_eq_true_eq] at hv
  obtain ⟨⟨⟨hm1, hm2⟩, hd1⟩, hd2⟩ := hv
  have hdm : daysInMonth y m ≤ 31 := by
    unfold daysInMonth
    split
    · split <;> omega
    · split <;> omega
  have hd31 : d ≤ 31 := le_trans hd2 hdm
  have hy' : y ≤ 9999 := hy
  unfold isoSlice10
  rw [if_pos hy']
  unfold isCanonicalDateStr
  dsimp only [pad4, pad2, List.cons_append, List.nil_append, String.toList]
  simp only [digitChar_toNat, List.all_cons, List.all_nil, Bool.and_true,
    Bool.and_eq_true, decide_eq_true_eq]
  refine ⟨⟨⟨trivial, trivial⟩, by omega⟩, ?_⟩
  have e1 : (48 + y / 1000 % 10 - 48) * 1000 + (48 + y / 100 % 10 - 48) * 100 +
      (48 + y / 10 % 10 - 48) * 10 + (48 + y % 10 - 48) = y := by omega
  have e2 : (48 + m / 10 % 10 - 48) * 10 + (48 + m % 10 - 48) = m := by omega
  have e3 : (48 + d / 10 % 10 - 48) * 10 + (48 + d % 10 - 48) = d := by omega
  rw [e1, e2, e3]
  simp only [DateTriple.valid, Bool.and_eq_true, decide_eq_true_eq]
  exact ⟨⟨⟨hm1, hm2⟩, hd1⟩, hd2⟩

/-- C8 (amended): after a successful reconciliation, the stored invoice_date
is either absent, or — provided the parsed date's year is at most 9999 — a
valid calendar date in canonical YYYY-MM-DD form; and a date string the
Date parser rejects is dropped (stored as null), never stored verbatim.
Without the year bound the claim fails: a valid expanded-year ISO date
parses, and `toISOString().slice(0, 10)` then stores the non-canonical
`+YYYYYY-MM` prefix (see the counterexample). -/
theorem c8_date_canonical (P : JsPrims) (o : Oracle) (db : Db) (llm : LlmResult)
    (hy : ∀ v t, (parsedOf llm).getField "invoice_date" = some v →
          P.dateParseVal v = some t → t.year ≤ 9999)
    (hs : (extractHandler P o db llm).1 = .success) :
    (∀ s, (extractHandler P o db llm).2.invoice.invoice_date = some s →
       isCanonicalDateStr s = true) ∧
    (∀ v, (parsedOf llm).getField "invoice_date" = some v →
       P.dateParseVal v = none →
       (extractHandler P o db llm).2.invoice.invoice_date = none) := by
  have hmain : (extractHandler P o db llm).2.invoice.invoice_date =
      normalizeDate P ((parsedOf llm).getField "invoice_date") := by
    unfold extractHandler at hs ⊢
    by_cases h1 : db.present = true
    · rw [if_neg (by simp [h1])] at hs ⊢
      cases hf : db.invoice.file_path with
      | none => simp [hf] at hs
      | some fp =>
          dsimp only at hs ⊢
          by_cases hok : llm.ok = true
          · by_cases hU : o.failUpdate = true
            · simp [hf, hok, hU] at hs
            · by_cases hD : o.failDelete = true
              · simp [hf, hok, hU, hD] at hs
              · cases hins : insertAll P o.failInsertAt (lineItemsOf (parsedOf llm)) with
                | none => simp [hf, hok, hU, hD, hins] at hs
                | some rows =>
                    by_cases hC : o.failCommit = true
                    · simp [hf, hok, hU, hD, hins, hC] at hs
                    · simp [hok, hU, hD, hins, hC, successInvoice]
          · by_cases hR : o.failReviewUpdate = true
            · simp [hf, hok, hR] at hs
            · simp [hf, hok, hR] at hs
    · simp [h1] at hs
  constructor
  · intro s hd
    rw [hmain] at hd
    unfold normalizeDate at hd
    cases hg : (parsedOf llm).getField "invoice_date" with
    | none => rw [hg] at hd; cases hd
    | some v =>
        rw [hg] at hd
        dsimp only at hd
        split at hd
        · exact Option.noConfusion hd
        · cases hpv : P.dateParseVal v with
          | none => rw [hpv] at hd; exact Option.noConfusion hd
          | some t =>
              rw [hpv] at hd
              simp only [Option.map_some'] at hd
              have hst := Option.some.inj hd
              rw [← hst]
              exact isoSlice10_canonical t (P.dateParseVal_valid v t hpv) (hy v t hg hpv)
  · intro v hg hpv
    rw [hmain]
    unfold normalizeDate
    rw [hg]
    dsimp only
    split
    · rfl
    · rw [hpv]; rfl

/-- Fixture: a successful LLM result carrying a plain ISO invoice date. -/
def sampleLlmDate : LlmResult :=
  ⟨true, some (.obj [("invoice_date", .str "2024-05-17")]), "", none⟩

theorem c8_date_canonical_witness :
    (∀ s, (extractHandler defaultPrims allOkOracle sampleDb sampleLlmDate).2.invoice.invoice_date =
        some s → isCanonicalDateStr s = true) ∧
    (∀ v, (parsedOf sampleLlmDate).getField "invoice_date" = some v →
       defaultPrims.dateParseVal v = none →
       (extractHandler defaultPrims allOkOracle sampleDb sampleLlmDate).2.invoice.invoice_date =
         none) :=
  c8_date_canonical defaultPrims allOkOracle sampleDb sampleLlmDate
    (fun v t hg hpv => by
      have hgv : (parsedOf sampleLlmDate).getField "invoice_date" =
          some (JValue.str "2024-05-17") := by decide
      rw [hgv] at hg
      have hv := Option.some.inj hg
      rw [← hv] at hpv
      have h17 : defaultPrims.dateParseVal (JValue.str "2024-05-17") =
          some ⟨2024, 5, 17⟩ := by decide
      rw [h17] at hpv
      have ht := Option.some.inj hpv
      rw [← ht]
      decide)
    (by decide)

/-- Fixture: a successful LLM result whose invoice date is a valid
expanded-year ISO date (year 10000). -/
def sampleLlmBigDate : LlmResult :=
  ⟨true, some (.obj [("invoice_date", .str "+010000-01-01")]), "", none⟩

/-- C8 counterexample: the model date "+010000-01-01" (1 Jan 10000, a valid
expanded-year ISO date accepted by `new Date`) survives the NaN check, the
reconciliation succeeds, and `toISOString().slice(0, 10)` stores
"+010000-01" — sign, six-digit year and month only — which is neither
canonical YYYY-MM-DD nor a calendar date at all, and is not dropped. -/
theorem c8_counterexample :
    defaultPrims.dateParseVal (.str "+010000-01-01") = some ⟨10000, 1, 1⟩ ∧
    (extractHandler defaultPrims allOkOracle sampleDb sampleLlmBigDate).1 = .success ∧
    (extractHandler defaultPrims allOkOracle sampleDb
        sampleLlmBigDate).2.invoice.invoice_date = some "+010000-01" ∧
    isCanonicalDateStr "+010000-01" = false := by
  refine ⟨by decide, by decide, by decide, by decide⟩

/-- C9: on the success path, an omitted currency falls back to the invoice's
existing currency and, when that is NULL, to the configured default "INR";
an omitted subtotal or total falls back to the invoice's existing numeric
value for that column, with 0 only when no prior value exists
(`moneyFallback none = 0`). -/
theorem c9_fallbacks (P : JsPrims) (o : Oracle) (db : Db) (llm : LlmResult)
    (hs : (extractHandler P o db llm).1 = .success) :
    ((parsedOf llm).getField "currency" = none →
       (extractHandler P o db llm).2.invoice.currency =
         (if db.invoice.currency.isNull then .str "INR" else db.invoice.currency)) ∧
    ((parsedOf llm).getField "subtotal" = none →
       (extractHandler P o db llm).2.invoice.subtotal =
         some (moneyFallback db.invoice.subtotal)) ∧
    ((parsedOf llm).getField "total" = none →
       (extractHandler P o db llm).2.invoice.total =
         some (moneyFallback db.invoice.total)) := by
  have hmain : (extractHandler P o db llm).2.invoice =
      successInvoice P db.invoice (parsedOf llm) llm.raw := by
    unfold extractHandler at hs ⊢
    by_cases h1 : db.present = true
    · rw [if_neg (by simp [h1])] at hs ⊢
      cases hf : db.invoice.file_path with
      | none => simp [hf] at hs
      | some fp =>
          dsimp only at hs ⊢
          by_cases hok : llm.ok = true
          · by_cases hU : o.failUpdate = true
            · simp [hf, hok, hU] at hs
            · by_cases hD : o.failDelete = true
              · simp [hf, hok, hU, hD] at hs
              · cases hins : insertAll P o.failInsertAt (lineItemsOf (parsedOf llm)) with
                | none => simp [hf, hok, hU, hD, hins] at hs
                | some rows =>
                    by_cases hC : o.failCommit = true
                    · simp [hf, hok, hU, hD, hins, hC] at hs
                    · simp [hok, hU, hD, hins, hC]
          · by_cases hR : o.failReviewUpdate = true
            · simp [hf, hok, hR] at hs
            · simp [hf, hok, hR] at hs
    · simp [h1] at hs
  refine ⟨?_, ?_, ?_⟩
  · intro hg
    rw [hmain]
    unfold successInvoice
    dsimp only
    rw [hg]
    rfl
  · intro hg
    rw [hmain]
    unfold successInvoice
    dsimp only
    unfold storedMoney
    rw [hg]
  · intro hg
    rw [hmain]
    unfold successInvoice
    dsimp only
    unfold storedMoney
    rw [hg]

theorem c9_fallbacks_witness :
    ((parsedOf sampleLlmOk).getField "currency" = none →
       (extractHandler defaultPrims allOkOracle sampleDb sampleLlmOk).2.invoice.currency =
         (if sampleDb.invoice.currency.isNull then .str "INR" else sampleDb.invoice.currency)) ∧
    ((parsedOf sampleLlmOk).getField "subtotal" = none →
       (extractHandler defaultPrims allOkOracle sampleDb sampleLlmOk).2.invoice.subtotal =
         some (moneyFallback sampleDb.invoice.subtotal)) ∧
    ((parsedOf sampleLlmOk).getField "total" = none →
       (extractHandler defaultPrims allOkOracle sampleDb sampleLlmOk).2.invoice.total =
         some (moneyFallback sampleDb.invoice.total)) :=
  c9_fallbacks defaultPrims allOkOracle sampleDb sampleLlmOk (by decide)

/-- The result-shape contract of both extractors: either ok with a parsed
object and no error, or not ok with no parsed object and an error string. -/
def LlmWf (r : LlmResult) : Prop :=
  (r.ok = true ∧ r.parsed.isSome = true ∧ r.error = none) ∨
  (r.ok = false ∧ r.parsed = none ∧ r.error.isSome = true)

theorem catchResult_wf (e : String) : LlmWf (catchResult e) :=
  Or.inr ⟨rfl, rfl, rfl⟩

theorem jsonStage_wf (P : JsPrims) (t : String) : LlmWf (jsonStage P t) := by
  unfold jsonStage
  cases braceScan t.toList with
  | none => exact Or.inr ⟨rfl, rfl, rfl⟩
  | some m =>
      dsimp only
      cases jsonParse (String.mk m) with
      | none => exact Or.inr ⟨rfl, rfl, rfl⟩
      | some parsed =>
          dsimp only
          cases coerceTop P parsed with
          | none => exact Or.inr ⟨rfl, rfl, rfl⟩
          | some c => exact Or.inl ⟨rfl, rfl, rfl⟩

theorem jsonStage2_wf (P : JsPrims) (t : String) : LlmWf (jsonStage2 P t) := by
  unfold jsonStage2
  cases braceScan t.toList with
  | none => exact Or.inr ⟨rfl, rfl, rfl⟩
  | some m =>
      dsimp only
      cases jsonParse (String.mk m) with
      | none => exact Or.inr ⟨rfl, rfl, rfl⟩
      | some parsed =>
          dsimp only
          cases coerceTop2 P parsed with
          | none => exact Or.inr ⟨rfl, rfl, rfl⟩
          | some c => exact Or.inl ⟨rfl, rfl, rfl⟩

/-- C10: both extractors are total in their error handling — for every API
key and every behaviour of the file system, the network and the model
backend (unreadable file, refused connection, throwing body reader,
arbitrary response value), the returned result is either ok:true with a
parsed object and no error, or ok:false with no parsed object and an error
string; no exception propagates (every throw site is modelled and lands in
a catch whose result satisfies the same contract). -/
theorem c10_totality (P : JsPrims) (k : Option String) (env : EnvJs) (env2 : Env2) :
    LlmWf (extractInvoiceFromFile P k env).1 ∧
    LlmWf (extractInvoiceFromFile2 P k env2).1 := by
  constructor
  · unfold extractInvoiceFromFile
    cases env.readFile with
    | error e => exact catchResult_wf e
    | ok content =>
        dsimp only
        cases env.fetch with
        | error e => exact catchResult_wf e
        | ok resp =>
            dsimp only
            by_cases hro : resp.respOk = true
            · rw [if_neg (by simp [hro])]
              cases resp.json with
              | error e => exact catchResult_wf e
              | ok j =>
                  dsimp only
                  cases resolveLlmJs P j with
                  | none => exact catchResult_wf "TypeError"
                  | some rv =>
                      dsimp only
                      cases rv with
                      | str s => exact jsonStage_wf P (P.heDecode s)
                      | null => exact catchResult_wf "TypeError"
                      | bool b => exact catchResult_wf "TypeError"
                      | num n => exact catchResult_wf "TypeError"
                      | arr xs => exact catchResult_wf "TypeError"
                      | obj fs => exact catchResult_wf "TypeError"
            · rw [if_pos (by simp [hro])]
              cases resp.text with
              | error e => exact catchResult_wf e
              | ok t => exact Or.inr ⟨rfl, rfl, rfl⟩
  · unfold extractInvoiceFromFile2
    cases k with
    | none => exact catchResult_wf "OPENAI_API_KEY environment variable not set"
    | some key =>
        dsimp only
        cases env2.readFile with
        | error e => exact catchResult_wf e
        | ok content =>
            dsimp only
            cases env2.create with
            | error e => exact catchResult_wf e
            | ok resp =>
                exact jsonStage2_wf P (P.heDecode (extractTextFromResponsesApi P resp))
